import Mathlib

/-!
# AXI-Lite testbench master (`axi_tb.cpp`): shallow embedding

The `AXIMaster` bus-functional model of `axi_tb.cpp` is embedded as pure
functions on an explicit state.

* `uint32_t` values (addresses, data, tags) are natural numbers; the program
  performs no arithmetic on them, only equality tests and map look-ups.
* The six `int` statistics are integers.  Signed overflow is undefined
  behaviour in C++, so the embedding describes runs whose counters stay
  below `INT_MAX`.
* `std::map` is an association list kept in key order by `StdMap.assign`;
  `StdMap.index` is `operator[]`, which default-inserts a missing key.
* `std::queue` is a list: `push` appends at the back, `front`/`pop` take the
  head.
* The device under test (`Vaxi_slave`) is external.  It is a trace giving,
  for every value of the simulation time in nanoseconds, the signals the
  device drives.  `sc_start(1, SC_NS)` advances the time by one.
* A master-driven signal field holds the value most recently written by the
  master.
* The busy-wait loops take a fuel argument: the number of loop iterations
  allowed.  A loop that runs out of fuel yields `none`.
* `std::cout` output of the member functions is the `log` field, one
  structured event per printed line.
-/

namespace AxiTb

/-! ## std::map -/

/-- Ordered association list standing for `std::map<uint32_t, V>`. -/
abbrev StdMap (V : Type) := List (Nat × V)

namespace StdMap

/-- Look-up of a key: `m.find(k)`; `none` is `m.end()`. -/
def find {V : Type} : StdMap V → Nat → Option V
  | [], _ => none
  | (k', v) :: rest, k => if k = k' then some v else find rest k

/-- The number of entries with key `k`, as in `m.count(k)`. -/
def count {V : Type} (m : StdMap V) (k : Nat) : Nat :=
  if (find m k).isSome then 1 else 0

/-- The effect of `m[k] = v`: overwrite the entry of `k` or insert it at its
place in key order. -/
def assign {V : Type} : StdMap V → Nat → V → StdMap V
  | [], k, v => [(k, v)]
  | (k', v') :: rest, k, v =>
    if k < k' then (k, v) :: (k', v') :: rest
    else if k = k' then (k, v) :: rest
    else (k', v') :: assign rest k v

/-- The effect of evaluating `m[k]`: the mapped value together with the map
afterwards; a missing key is inserted with the value-initialised `dflt`. -/
def index {V : Type} (m : StdMap V) (k : Nat) (dflt : V) : V × StdMap V :=
  match find m k with
  | some v => (v, m)
  | none => (dflt, assign m k dflt)

end StdMap

/-! ## Device trace, state, events -/

/-- Signals driven by the device under test at one instant. -/
structure DevOut where
  arready : Bool
  awready : Bool
  wready : Bool
  rdata : Nat
  rid : Nat
  rvalid : Bool
  bvalid : Bool
deriving DecidableEq, Repr

/-- The device as a trace: its outputs at every simulation time (ns). -/
abbrev Device := Nat → DevOut

/-- One line printed on `std::cout` by a member function, with the values
it shows. -/
inductive Event where
  | write_addr_sent (time addr : Nat)
  | write_data_sent (time data : Nat)
  | write_response_received (time : Nat)
  | read_addr_sent (time addr id : Nat)
  | read_data_received (time id addr data : Nat)
  | error_expected (expected got : Nat)
deriving DecidableEq, Repr

/-- The `AXIMaster` object together with the simulation time. -/
structure State where
  time : Nat
  araddr : Nat
  arid : Nat
  arvalid : Bool
  awaddr : Nat
  awvalid : Bool
  wdata : Nat
  wvalid : Bool
  rready : Bool
  bready : Bool
  ref_memory : StdMap Nat
  pending_reads : StdMap (List Nat)
  writes_sent : Int
  reads_sent : Int
  write_responses : Int
  read_responses : Int
  read_matches : Int
  read_mismatches : Int
  log : List Event
deriving DecidableEq, Repr

/-- The object after the constructor and the first `sc_start(0, SC_NS)`:
the three valid outputs low, `rready` and `bready` high, empty maps and all
statistics zero. -/
def State.init : State :=
  { time := 0, araddr := 0, arid := 0, arvalid := false,
    awaddr := 0, awvalid := false, wdata := 0, wvalid := false,
    rready := true, bready := true,
    ref_memory := [], pending_reads := [],
    writes_sent := 0, reads_sent := 0, write_responses := 0,
    read_responses := 0, read_matches := 0, read_mismatches := 0,
    log := [] }

/-- The pending addresses of tag `id`, oldest first; empty when the tag has
no entry in `pending_reads`. -/
def State.queue (s : State) (id : Nat) : List Nat :=
  (StdMap.find s.pending_reads id).getD []

/-! ## Busy-wait loops -/

/-- The loop `do { sc_start(1, SC_NS); } while (cond);` started at time `t`:
the time at which it exits, `cond` being evaluated at the current time. -/
def do_while (cond : Nat → Bool) : Nat → Nat → Option Nat
  | 0, _ => none
  | fuel + 1, t => if cond (t + 1) then do_while cond fuel (t + 1) else some (t + 1)

/-- The loop `while (cond) { sc_start(1, SC_NS); }` started at time `t`. -/
def while_do (cond : Nat → Bool) : Nat → Nat → Option Nat
  | 0, _ => none
  | fuel + 1, t => if cond t then while_do cond fuel (t + 1) else some t

/-! ## Member functions of AXIMaster -/

/-- Member `wait_clocks(int n)`: `n` single-tick `sc_start` calls. -/
def wait_clocks (s : State) (n : Int) : State :=
  { s with time := s.time + n.toNat }

/-- Member `send_write_addr(addr)`. -/
def send_write_addr (dev : Device) (fuel : Nat) (s : State) (addr : Nat) : Option State :=
  let s1 := { s with awaddr := addr, awvalid := true }
  match do_while (fun t => !(dev t).awready) fuel s1.time with
  | none => none
  | some t =>
    some { s1 with time := t, log := s1.log ++ [Event.write_addr_sent t addr],
                   awvalid := false }

/-- Member `send_write_data(data)`. -/
def send_write_data (dev : Device) (fuel : Nat) (s : State) (data : Nat) : Option State :=
  let s1 := { s with wdata := data, wvalid := true }
  match do_while (fun t => !(dev t).wready) fuel s1.time with
  | none => none
  | some t =>
    some { s1 with time := t, log := s1.log ++ [Event.write_data_sent t data],
                   wvalid := false }

/-- The loop of lines 138-143, also written out in `sc_main` (lines 355-360
and 392-397): wait for `bvalid && bready`, advance one tick, count the
response. -/
def await_write_response (dev : Device) (fuel : Nat) (s : State) : Option State :=
  match while_do (fun t => !(dev t).bvalid || !s.bready) fuel s.time with
  | none => none
  | some t =>
    some { s with time := t + 1, write_responses := s.write_responses + 1,
                  log := s.log ++ [Event.write_response_received (t + 1)] }

/-- Member `complete_write(addr, data)`. -/
def complete_write (dev : Device) (fuel : Nat) (s : State) (addr data : Nat) : Option State :=
  let s1 := { s with ref_memory := StdMap.assign s.ref_memory addr data,
                     writes_sent := s.writes_sent + 1 }
  await_write_response dev fuel s1

/-- Member `write(addr, data)`. -/
def write (dev : Device) (fuel : Nat) (s : State) (addr data : Nat) : Option State :=
  match send_write_addr dev fuel s addr with
  | none => none
  | some s1 =>
    match send_write_data dev fuel s1 data with
    | none => none
    | some s2 => complete_write dev fuel s2 addr data

/-- Member `send_read_addr(addr, id)`. -/
def send_read_addr (dev : Device) (fuel : Nat) (s : State) (addr id : Nat) : Option State :=
  let s1 := { s with araddr := addr, arid := id, arvalid := true }
  match do_while (fun t => !(dev t).arready) fuel s1.time with
  | none => none
  | some t =>
    let q := StdMap.index s1.pending_reads id []
    some { s1 with time := t, log := s1.log ++ [Event.read_addr_sent t addr id],
                   arvalid := false,
                   pending_reads := StdMap.assign q.2 id (q.1 ++ [addr]),
                   reads_sent := s1.reads_sent + 1 }

/-- Lines 187-192 of `receive_read_data`: the address attributed to a
response with tag `id`, and `pending_reads` afterwards.  Every
`pending_reads[id]` is an `operator[]` access. -/
def resolve (pending : StdMap (List Nat)) (id : Nat) : Nat × StdMap (List Nat) :=
  let q0 := StdMap.index pending id []
  if !q0.1.isEmpty then
    let q1 := StdMap.index q0.2 id []
    let q2 := StdMap.index q1.2 id []
    (q1.1.headD 0, StdMap.assign q2.2 id q2.1.tail)
  else
    (0, q0.2)

/-- Lines 198-207 of `receive_read_data`: the comparison with the
reference memory.  `ref_memory[addr]` is an `operator[]` access. -/
def check_reference (s : State) (addr data : Nat) : State :=
  if StdMap.count s.ref_memory addr ≠ 0 then
    let r := StdMap.index s.ref_memory addr 0
    if r.1 = data then
      { s with ref_memory := r.2, read_matches := s.read_matches + 1 }
    else
      let r1 := StdMap.index r.2 addr 0
      { s with ref_memory := r1.2, read_mismatches := s.read_mismatches + 1,
               log := s.log ++ [Event.error_expected r1.1 data] }
  else s

/-- Lines 185-211 of `receive_read_data`, entered at the time the wait loop
exits with the device showing `data` and `id`. -/
def receive_body (s : State) (data id : Nat) : Nat × State :=
  let r := resolve s.pending_reads id
  let addr := r.1
  let s1 := { s with pending_reads := r.2,
                     log := s.log ++ [Event.read_data_received s.time id addr data] }
  let s2 := check_reference s1 addr data
  (data, { s2 with read_responses := s2.read_responses + 1, time := s2.time + 1 })

/-- Member `receive_read_data()`: the returned data and the state after. -/
def receive_read_data (dev : Device) (fuel : Nat) (s : State) : Option (Nat × State) :=
  match while_do (fun t => !(dev t).rvalid || !s.rready) fuel s.time with
  | none => none
  | some t => some (receive_body { s with time := t } (dev t).rdata (dev t).rid)

/-- Member `read(addr, id)`. -/
def read (dev : Device) (fuel : Nat) (s : State) (addr id : Nat) : Option (Nat × State) :=
  match send_read_addr dev fuel s addr id with
  | none => none
  | some s1 => receive_read_data dev fuel s1

/-- Member `print_stats()`: the lines written to `std::cout`, one per
`std::endl`. -/
def print_stats (s : State) : List String :=
  [ "\n========================================",
    "           Test Statistics",
    "========================================",
    "Writes sent:      " ++ toString s.writes_sent,
    "Write responses:  " ++ toString s.write_responses,
    "Reads sent:       " ++ toString s.reads_sent,
    "Read responses:   " ++ toString s.read_responses,
    "Read matches:     " ++ toString s.read_matches,
    "Read mismatches:  " ++ toString s.read_mismatches,
    "========================================",
    if s.read_mismatches = 0 then "         *** TEST PASSED ***"
    else "         *** TEST FAILED ***",
    "========================================\n" ]

/-- The value returned by `sc_main` (line 453). -/
def exit_status (s : State) : Int :=
  if s.read_mismatches = 0 then 0 else 1

/-! ## Driver: sequences of calls, as `sc_main` makes them -/

/-- One statement of the driver: a call of a member function, or one of the
direct accesses to the public members made in `sc_main`. -/
inductive Op where
  | wait_clocks (n : Int)
  | send_write_addr (addr : Nat)
  | send_write_data (data : Nat)
  | complete_write (addr data : Nat)
  | write (addr data : Nat)
  | send_read_addr (addr id : Nat)
  | receive_read_data
  | read (addr id : Nat)
  | print_stats
  | sc_start (n : Nat)
  | assign_ref_memory (addr data : Nat)
  | incr_writes_sent
  | await_write_response
deriving DecidableEq, Repr

/-- Execution of one driver statement; a returned value is discarded, as
`sc_main` does. -/
def step (dev : Device) (fuel : Nat) (s : State) : Op → Option State
  | Op.wait_clocks n => some (wait_clocks s n)
  | Op.send_write_addr addr => send_write_addr dev fuel s addr
  | Op.send_write_data data => send_write_data dev fuel s data
  | Op.complete_write addr data => complete_write dev fuel s addr data
  | Op.write addr data => write dev fuel s addr data
  | Op.send_read_addr addr id => send_read_addr dev fuel s addr id
  | Op.receive_read_data => (receive_read_data dev fuel s).map Prod.snd
  | Op.read addr id => (read dev fuel s addr id).map Prod.snd
  | Op.print_stats => some s
  | Op.sc_start n => some { s with time := s.time + n }
  | Op.assign_ref_memory addr data =>
    some { s with ref_memory := StdMap.assign s.ref_memory addr data }
  | Op.incr_writes_sent => some { s with writes_sent := s.writes_sent + 1 }
  | Op.await_write_response => await_write_response dev fuel s

/-- Execution of a sequence of driver statements. -/
def run (dev : Device) (fuel : Nat) : State → List Op → Option State
  | s, [] => some s
  | s, op :: ops =>
    match step dev fuel s op with
    | none => none
    | some s1 => run dev fuel s1 ops

/-! ## Concrete devices, used to run the model -/

/-- A device that shows every ready and valid signal high at all times and
answers every read with the fixed `data` and tag `id`. -/
def Device.prompt (data id : Nat) : Device :=
  fun _ => { arready := true, awready := true, wready := true,
             rdata := data, rid := id, rvalid := true, bvalid := true }

/-- A device like `Device.prompt` whose ready and valid signals are low
before time `t0`. -/
def Device.late (t0 data id : Nat) : Device :=
  fun t => { arready := decide (t0 ≤ t), awready := decide (t0 ≤ t),
             wready := decide (t0 ≤ t), rdata := data, rid := id,
             rvalid := decide (t0 ≤ t), bvalid := decide (t0 ≤ t) }

/-- A device that shows every ready and valid signal high at all times and,
from time `t0` on, presents the responses (tag, data) of `rs` one per tick. -/
def Device.replay (rs : List (Nat × Nat)) (t0 : Nat) : Device :=
  fun t => { arready := true, awready := true, wready := true,
             rdata := (rs.getD (t - t0) (0, 0)).2, rid := (rs.getD (t - t0) (0, 0)).1,
             rvalid := true, bvalid := true }

/-- A device answering the five reads of Test 6, issued from time 0, in the
tag order 3, 1, 5, 2, 4, each with the value Tests 1 and 2 wrote. -/
def Device.shuffled : Device :=
  Device.replay [(3, 0x33333333), (1, 0x11111111), (5, 0xBBBBBBBB), (2, 0x22222222),
    (4, 0xAAAAAAAA)] 5

/-- The initial state with the reference memory holding what Tests 1 and 2
wrote at the five addresses read by Test 6. -/
def State.written : State :=
  { State.init with
    ref_memory := [(0x00, 0x11111111), (0x04, 0x22222222), (0x08, 0x33333333),
                   (0x10, 0xAAAAAAAA), (0x14, 0xBBBBBBBB)] }

/-- The five calls of Test 6 (lines 417-421 of `sc_main`). -/
def test6_sends : List Op :=
  [Op.send_read_addr 0x00 1, Op.send_read_addr 0x04 2, Op.send_read_addr 0x08 3,
   Op.send_read_addr 0x10 4, Op.send_read_addr 0x14 5]

/-- The statements of Test 3 after its addresses have been sent (lines
341-351), for any list of (address, data) pairs: each data value is sent and
then recorded under its address by the driver. -/
def record_after_data : List (Nat × Nat) → List Op
  | [] => []
  | (a, d) :: rest =>
    Op.send_write_data d :: Op.assign_ref_memory a d :: Op.incr_writes_sent ::
      record_after_data rest

/-- The statements of Test 4 after its data values have been sent (lines
378-388), for any list of (address, data) pairs: each address is sent and
then its data value recorded under it by the driver. -/
def record_after_addr : List (Nat × Nat) → List Op
  | [] => []
  | (a, d) :: rest =>
    Op.send_write_addr a :: Op.assign_ref_memory a d :: Op.incr_writes_sent ::
      record_after_addr rest

/-- Test 3 (lines 334-361) for any lists: all addresses, then all data values
with the driver's bookkeeping, then one response wait per address. -/
def addresses_before_data (addrs datas : List Nat) : List Op :=
  addrs.map Op.send_write_addr ++ record_after_data (addrs.zip datas) ++
    List.replicate addrs.length Op.await_write_response

/-- Test 4 (lines 371-398) for any lists: all data values, then all addresses
with the driver's bookkeeping, then one response wait per data value. -/
def data_before_addresses (addrs datas : List Nat) : List Op :=
  datas.map Op.send_write_data ++ record_after_addr (addrs.zip datas) ++
    List.replicate datas.length Op.await_write_response

/-- The calls `write(addr_i, data_i)` in order, as in Tests 1 and 2. -/
def pairwise_writes (addrs datas : List Nat) : List Op :=
  (addrs.zip datas).map (fun p => Op.write p.1 p.2)

/-- What one driver statement does to the reference memory and to
`writes_sent`, whatever the timing. -/
def Op.ref_effect : Op → StdMap Nat × Int → StdMap Nat × Int
  | Op.write a d, x => (StdMap.assign x.1 a d, x.2 + 1)
  | Op.complete_write a d, x => (StdMap.assign x.1 a d, x.2 + 1)
  | Op.assign_ref_memory a d, x => (StdMap.assign x.1 a d, x.2)
  | Op.incr_writes_sent, x => (x.1, x.2 + 1)
  | _, x => x

/-- A driver statement that stores a value for `addr` in the reference
memory. -/
def Op.writes_to : Op → Nat → Bool
  | Op.write a _, addr => a == addr
  | Op.complete_write a _, addr => a == addr
  | Op.assign_ref_memory a _, addr => a == addr
  | _, _ => false

/-! ## Observations on the printed lines -/

/-- The responses shown by the `read data received` lines of a log, in
order: tag, attributed address and data of each. -/
def responses : List Event → List (Nat × Nat × Nat)
  | [] => []
  | Event.read_data_received _ id addr data :: es => (id, addr, data) :: responses es
  | _ :: es => responses es

/-- The `ERROR` line that follows the `read data received` line of a
response attributed to `addr`, if there is one. -/
def error_lines (ref : StdMap Nat) (addr data : Nat) : List Event :=
  match StdMap.find ref addr with
  | some v => if v = data then [] else [Event.error_expected v data]
  | none => []

/-- A response (tag, attributed address, data) that the reference memory
`ref` counts as a match. -/
def is_match (ref : StdMap Nat) (r : Nat × Nat × Nat) : Bool :=
  StdMap.find ref r.2.1 == some r.2.2

/-- A response (tag, attributed address, data) that the reference memory
`ref` counts as a mismatch. -/
def is_mismatch (ref : StdMap Nat) (r : Nat × Nat × Nat) : Bool :=
  (StdMap.find ref r.2.1).isSome && StdMap.find ref r.2.1 != some r.2.2

/-- A device that shows each of its ready and valid signals high within
fewer than `L` ticks of any instant. -/
def Responsive (dev : Device) (L : Nat) : Prop :=
  ∀ t, (∃ k, k < L ∧ (dev (t + k)).arready = true) ∧
       (∃ k, k < L ∧ (dev (t + k)).awready = true) ∧
       (∃ k, k < L ∧ (dev (t + k)).wready = true) ∧
       (∃ k, k < L ∧ (dev (t + k)).rvalid = true) ∧
       (∃ k, k < L ∧ (dev (t + k)).bvalid = true)

/-! ## Lemmas on the map model -/

namespace StdMap

theorem find_assign {V : Type} (m : StdMap V) (k : Nat) (v : V) (k' : Nat) :
    find (assign m k v) k' = if k' = k then some v else find m k' := by
  induction m with
  | nil => simp [assign, find]
  | cons hd rest ih =>
    obtain ⟨a, b⟩ := hd
    by_cases h1 : k < a
    · by_cases h3 : k' = k
      · simp [assign, find, h1, h3]
      · simp [assign, find, h1, h3]
    · by_cases h2 : k = a
      · subst h2
        by_cases h3 : k' = k
        · simp [assign, find, h3]
        · simp [assign, find, h3]
      · by_cases h3 : k' = k
        · subst h3
          simp [assign, find, h1, h2, ih]
        · simp [assign, find, h1, h2, ih, h3]

theorem index_fst {V : Type} (m : StdMap V) (k : Nat) (d : V) :
    (index m k d).1 = (find m k).getD d := by
  cases h : find m k <;> simp [index, h]

theorem find_index_snd {V : Type} (m : StdMap V) (k : Nat) (d : V) (k' : Nat) :
    find (index m k d).2 k' = if k' = k then some ((find m k).getD d) else find m k' := by
  cases h : find m k with
  | none => simp [index, h, find_assign]
  | some v =>
    simp only [index, h, Option.getD_some]
    split_ifs with hk
    · subst hk; exact h
    · rfl

end StdMap

/-! ## Lemmas on the wait loops -/

theorem do_while_eq (cond : Nat → Bool) (k : Nat) :
    ∀ (fuel t : Nat), 1 ≤ k → k ≤ fuel → cond (t + k) = false →
      (∀ j, 1 ≤ j → j < k → cond (t + j) = true) →
      do_while cond fuel t = some (t + k) := by
  induction k with
  | zero => intro fuel t h; omega
  | succ n ih =>
    intro fuel t _ hfuel hk hlt
    obtain ⟨f, rfl⟩ : ∃ f, fuel = f + 1 := ⟨fuel - 1, by omega⟩
    rcases Nat.eq_zero_or_pos n with hn | hn
    · subst hn
      simp only [do_while]
      simp only [zero_add] at hk
      simp [hk]
    · have h1 : cond (t + 1) = true := hlt 1 le_rfl (by omega)
      simp only [do_while, h1, if_true]
      have := ih f (t + 1) hn (by omega) (by rw [← hk]; congr 1; omega)
        (fun j hj1 hj2 => by
          have := hlt (j + 1) (by omega) (by omega)
          rw [← this]; congr 1; omega)
      rw [this]; congr 1; omega

theorem do_while_some (cond : Nat → Bool) :
    ∀ (fuel t t' : Nat), do_while cond fuel t = some t' →
      ∃ k, 1 ≤ k ∧ k ≤ fuel ∧ t' = t + k ∧ cond (t + k) = false ∧
        ∀ j, 1 ≤ j → j < k → cond (t + j) = true := by
  intro fuel
  induction fuel with
  | zero => intro t t' h; simp [do_while] at h
  | succ f ih =>
    intro t t' h
    simp only [do_while] at h
    split_ifs at h with hc
    · obtain ⟨k, hk1, hk2, hk3, hk4, hk5⟩ := ih (t + 1) t' h
      refine ⟨k + 1, by omega, by omega, by omega, ?_, ?_⟩
      · rw [← hk4]; congr 1; omega
      · intro j hj1 hj2
        rcases Nat.eq_or_lt_of_le hj1 with hj | hj
        · rw [← hj]; exact hc
        · have := hk5 (j - 1) (by omega) (by omega)
          rw [← this]; congr 1; omega
    · simp only [Option.some.injEq] at h
      refine ⟨1, le_rfl, by omega, h.symm, by simpa using hc, ?_⟩
      intro j hj1 hj2; omega

theorem while_do_eq (cond : Nat → Bool) (k : Nat) :
    ∀ (fuel t : Nat), k < fuel → cond (t + k) = false →
      (∀ j, j < k → cond (t + j) = true) →
      while_do cond fuel t = some (t + k) := by
  induction k with
  | zero =>
    intro fuel t hfuel hk _
    obtain ⟨f, rfl⟩ : ∃ f, fuel = f + 1 := ⟨fuel - 1, by omega⟩
    simp only [add_zero] at hk
    simp [while_do, hk]
  | succ n ih =>
    intro fuel t hfuel hk hlt
    obtain ⟨f, rfl⟩ : ∃ f, fuel = f + 1 := ⟨fuel - 1, by omega⟩
    have h0 : cond t = true := by simpa using hlt 0 (by omega)
    simp only [while_do, h0, if_true]
    have := ih f (t + 1) (by omega) (by rw [← hk]; congr 1; omega)
      (fun j hj => by
        have := hlt (j + 1) (by omega)
        rw [← this]; congr 1; omega)
    rw [this]; congr 1; omega

theorem while_do_some (cond : Nat → Bool) :
    ∀ (fuel t t' : Nat), while_do cond fuel t = some t' →
      ∃ k, k < fuel ∧ t' = t + k ∧ cond (t + k) = false ∧
        ∀ j, j < k → cond (t + j) = true := by
  intro fuel
  induction fuel with
  | zero => intro t t' h; simp [while_do] at h
  | succ f ih =>
    intro t t' h
    simp only [while_do] at h
    split_ifs at h with hc
    · obtain ⟨k, hk1, hk2, hk3, hk4⟩ := ih (t + 1) t' h
      refine ⟨k + 1, by omega, by omega, ?_, ?_⟩
      · rw [← hk3]; congr 1; omega
      · intro j hj
        rcases Nat.eq_zero_or_pos j with hj0 | hj0
        · subst hj0; simpa using hc
        · have := hk4 (j - 1) (by omega)
          rw [← this]; congr 1; omega
    · simp only [Option.some.injEq] at h
      exact ⟨0, by omega, by omega, by simpa using hc, fun j hj => by omega⟩

/-! ## Lemmas on the member functions -/

theorem send_write_addr_eq (dev : Device) (s : State) (addr k fuel : Nat)
    (hk : 1 ≤ k) (hfuel : k ≤ fuel) (hready : (dev (s.time + k)).awready = true)
    (hmin : ∀ j, 1 ≤ j → j < k → (dev (s.time + j)).awready = false) :
    send_write_addr dev fuel s addr =
      some { s with awaddr := addr, awvalid := false, time := s.time + k,
                    log := s.log ++ [Event.write_addr_sent (s.time + k) addr] } := by
  have h := do_while_eq (fun t => !(dev t).awready) k fuel s.time hk hfuel
    (by simp [hready]) (fun j h1 h2 => by simp [hmin j h1 h2])
  simp [send_write_addr, h]

theorem send_write_addr_some {dev : Device} {fuel : Nat} {s s' : State} {addr : Nat}
    (h : send_write_addr dev fuel s addr = some s') :
    ∃ k, 1 ≤ k ∧ k ≤ fuel ∧ (dev (s.time + k)).awready = true ∧
      (∀ j, 1 ≤ j → j < k → (dev (s.time + j)).awready = false) ∧
      s' = { s with awaddr := addr, awvalid := false, time := s.time + k,
                    log := s.log ++ [Event.write_addr_sent (s.time + k) addr] } := by
  simp only [send_write_addr] at h
  cases hd : do_while (fun t => !(dev t).awready) fuel s.time with
  | none => simp [hd] at h
  | some t =>
    simp only [hd, Option.some.injEq] at h
    obtain ⟨k, hk1, hk2, hk3, hk4, hk5⟩ := do_while_some _ _ _ _ hd
    subst hk3
    exact ⟨k, hk1, hk2, by simpa using hk4, fun j h1 h2 => by simpa using hk5 j h1 h2, h.symm⟩

theorem send_write_data_eq (dev : Device) (s : State) (data k fuel : Nat)
    (hk : 1 ≤ k) (hfuel : k ≤ fuel) (hready : (dev (s.time + k)).wready = true)
    (hmin : ∀ j, 1 ≤ j → j < k → (dev (s.time + j)).wready = false) :
    send_write_data dev fuel s data =
      some { s with wdata := data, wvalid := false, time := s.time + k,
                    log := s.log ++ [Event.write_data_sent (s.time + k) data] } := by
  have h := do_while_eq (fun t => !(dev t).wready) k fuel s.time hk hfuel
    (by simp [hready]) (fun j h1 h2 => by simp [hmin j h1 h2])
  simp [send_write_data, h]

theorem send_write_data_some {dev : Device} {fuel : Nat} {s s' : State} {data : Nat}
    (h : send_write_data dev fuel s data = some s') :
    ∃ k, 1 ≤ k ∧ k ≤ fuel ∧ (dev (s.time + k)).wready = true ∧
      (∀ j, 1 ≤ j → j < k → (dev (s.time + j)).wready = false) ∧
      s' = { s with wdata := data, wvalid := false, time := s.time + k,
                    log := s.log ++ [Event.write_data_sent (s.time + k) data] } := by
  simp only [send_write_data] at h
  cases hd : do_while (fun t => !(dev t).wready) fuel s.time with
  | none => simp [hd] at h
  | some t =>
    simp only [hd, Option.some.injEq] at h
    obtain ⟨k, hk1, hk2, hk3, hk4, hk5⟩ := do_while_some _ _ _ _ hd
    subst hk3
    exact ⟨k, hk1, hk2, by simpa using hk4, fun j h1 h2 => by simpa using hk5 j h1 h2, h.symm⟩

theorem await_write_response_eq (dev : Device) (s : State) (k fuel : Nat)
    (hb : s.bready = true) (hfuel : k < fuel) (hvalid : (dev (s.time + k)).bvalid = true)
    (hmin : ∀ j, j < k → (dev (s.time + j)).bvalid = false) :
    await_write_response dev fuel s =
      some { s with time := s.time + k + 1, write_responses := s.write_responses + 1,
                    log := s.log ++ [Event.write_response_received (s.time + k + 1)] } := by
  have h := while_do_eq (fun t => !(dev t).bvalid || !s.bready) k fuel s.time hfuel
    (by simp [hvalid, hb]) (fun j h1 => by simp [hmin j h1])
  simp [await_write_response, h]

theorem await_write_response_some {dev : Device} {fuel : Nat} {s s' : State}
    (h : await_write_response dev fuel s = some s') :
    ∃ k, k < fuel ∧ s.bready = true ∧ (dev (s.time + k)).bvalid = true ∧
      (∀ j, j < k → (dev (s.time + j)).bvalid = false) ∧
      s' = { s with time := s.time + k + 1, write_responses := s.write_responses + 1,
                    log := s.log ++ [Event.write_response_received (s.time + k + 1)] } := by
  simp only [await_write_response] at h
  cases hd : while_do (fun t => !(dev t).bvalid || !s.bready) fuel s.time with
  | none => simp [hd] at h
  | some t =>
    simp only [hd, Option.some.injEq] at h
    obtain ⟨k, hk1, hk2, hk3, hk4⟩ := while_do_some _ _ _ _ hd
    subst hk2
    simp only [Bool.or_eq_false_iff, Bool.not_eq_false_eq_eq_true] at hk3
    refine ⟨k, hk1, hk3.2, hk3.1, ?_, h.symm⟩
    intro j hj
    have := hk4 j hj
    simpa [hk3.2] using this

theorem send_read_addr_eq (dev : Device) (s : State) (addr id k fuel : Nat)
    (hk : 1 ≤ k) (hfuel : k ≤ fuel) (hready : (dev (s.time + k)).arready = true)
    (hmin : ∀ j, 1 ≤ j → j < k → (dev (s.time + j)).arready = false) :
    send_read_addr dev fuel s addr id =
      some { s with araddr := addr, arid := id, arvalid := false, time := s.time + k,
                    log := s.log ++ [Event.read_addr_sent (s.time + k) addr id],
                    pending_reads :=
                      StdMap.assign (StdMap.index s.pending_reads id []).2 id
                        ((StdMap.index s.pending_reads id []).1 ++ [addr]),
                    reads_sent := s.reads_sent + 1 } := by
  have h := do_while_eq (fun t => !(dev t).arready) k fuel s.time hk hfuel
    (by simp [hready]) (fun j h1 h2 => by simp [hmin j h1 h2])
  simp [send_read_addr, h]

theorem send_read_addr_some {dev : Device} {fuel : Nat} {s s' : State} {addr id : Nat}
    (h : send_read_addr dev fuel s addr id = some s') :
    ∃ k, 1 ≤ k ∧ k ≤ fuel ∧ (dev (s.time + k)).arready = true ∧
      (∀ j, 1 ≤ j → j < k → (dev (s.time + j)).arready = false) ∧
      s' = { s with araddr := addr, arid := id, arvalid := false, time := s.time + k,
                    log := s.log ++ [Event.read_addr_sent (s.time + k) addr id],
                    pending_reads :=
                      StdMap.assign (StdMap.index s.pending_reads id []).2 id
                        ((StdMap.index s.pending_reads id []).1 ++ [addr]),
                    reads_sent := s.reads_sent + 1 } := by
  simp only [send_read_addr] at h
  cases hd : do_while (fun t => !(dev t).arready) fuel s.time with
  | none => simp [hd] at h
  | some t =>
    simp only [hd, Option.some.injEq] at h
    obtain ⟨k, hk1, hk2, hk3, hk4, hk5⟩ := do_while_some _ _ _ _ hd
    subst hk3
    exact ⟨k, hk1, hk2, by simpa using hk4, fun j h1 h2 => by simpa using hk5 j h1 h2, h.symm⟩

theorem receive_read_data_eq (dev : Device) (s : State) (k fuel : Nat)
    (hr : s.rready = true) (hfuel : k < fuel) (hvalid : (dev (s.time + k)).rvalid = true)
    (hmin : ∀ j, j < k → (dev (s.time + j)).rvalid = false) :
    receive_read_data dev fuel s =
      some (receive_body { s with time := s.time + k }
        (dev (s.time + k)).rdata (dev (s.time + k)).rid) := by
  have h := while_do_eq (fun t => !(dev t).rvalid || !s.rready) k fuel s.time hfuel
    (by simp [hvalid, hr]) (fun j h1 => by simp [hmin j h1])
  simp [receive_read_data, h]

theorem receive_read_data_some {dev : Device} {fuel : Nat} {s : State} {r : Nat × State}
    (h : receive_read_data dev fuel s = some r) :
    ∃ k, k < fuel ∧ s.rready = true ∧ (dev (s.time + k)).rvalid = true ∧
      (∀ j, j < k → (dev (s.time + j)).rvalid = false) ∧
      r = receive_body { s with time := s.time + k }
        (dev (s.time + k)).rdata (dev (s.time + k)).rid := by
  simp only [receive_read_data] at h
  cases hd : while_do (fun t => !(dev t).rvalid || !s.rready) fuel s.time with
  | none => simp [hd] at h
  | some t =>
    simp only [hd, Option.some.injEq] at h
    obtain ⟨k, hk1, hk2, hk3, hk4⟩ := while_do_some _ _ _ _ hd
    subst hk2
    simp only [Bool.or_eq_false_iff, Bool.not_eq_false_eq_eq_true] at hk3
    refine ⟨k, hk1, hk3.2, hk3.1, ?_, h.symm⟩
    intro j hj
    have := hk4 j hj
    simpa [hk3.2] using this

/-! ### The data part of a read response -/

theorem resolve_fst (p : StdMap (List Nat)) (id : Nat) :
    (resolve p id).1 = ((StdMap.find p id).getD []).headD 0 := by
  cases h : StdMap.find p id with
  | none => simp [resolve, StdMap.index, h]
  | some q =>
    cases q with
    | nil => simp [resolve, StdMap.index, h]
    | cons a rest => simp [resolve, StdMap.index, h]

theorem find_resolve_snd (p : StdMap (List Nat)) (id u : Nat) :
    StdMap.find (resolve p id).2 u =
      if u = id then some ((StdMap.find p id).getD []).tail else StdMap.find p u := by
  cases h : StdMap.find p id with
  | none =>
    simp only [resolve, StdMap.index, h, List.isEmpty_nil, Bool.not_true,
      Bool.false_eq_true, if_false, StdMap.find_assign]
    simp
  | some q =>
    cases q with
    | nil =>
      simp only [resolve, StdMap.index, h, List.isEmpty_nil, Bool.not_true,
        Bool.false_eq_true, if_false]
      split_ifs with hu
      · subst hu; simpa using h
      · rfl
    | cons a rest =>
      simp [resolve, StdMap.index, h, StdMap.find_assign]

theorem check_reference_absent {s : State} {addr : Nat} (data : Nat)
    (h : StdMap.find s.ref_memory addr = none) : check_reference s addr data = s := by
  simp [check_reference, StdMap.count, h]

theorem check_reference_match {s : State} {addr : Nat} (data : Nat)
    (h : StdMap.find s.ref_memory addr = some data) :
    check_reference s addr data = { s with read_matches := s.read_matches + 1 } := by
  simp [check_reference, StdMap.count, StdMap.index, h]

theorem check_reference_mismatch {s : State} {addr v : Nat} (data : Nat)
    (h : StdMap.find s.ref_memory addr = some v) (hne : v ≠ data) :
    check_reference s addr data =
      { s with read_mismatches := s.read_mismatches + 1,
               log := s.log ++ [Event.error_expected v data] } := by
  simp [check_reference, StdMap.count, StdMap.index, h, hne]

theorem check_reference_ref_memory (s : State) (addr data : Nat) :
    (check_reference s addr data).ref_memory = s.ref_memory := by
  cases h : StdMap.find s.ref_memory addr with
  | none => rw [check_reference_absent data h]
  | some v =>
    by_cases hv : v = data
    · subst hv; rw [check_reference_match v h]
    · rw [check_reference_mismatch data h hv]

theorem check_reference_frame (s : State) (addr data : Nat) :
    (check_reference s addr data).pending_reads = s.pending_reads ∧
    (check_reference s addr data).time = s.time ∧
    (check_reference s addr data).read_responses = s.read_responses ∧
    (check_reference s addr data).reads_sent = s.reads_sent ∧
    (check_reference s addr data).writes_sent = s.writes_sent ∧
    (check_reference s addr data).write_responses = s.write_responses ∧
    (check_reference s addr data).rready = s.rready ∧
    (check_reference s addr data).bready = s.bready := by
  cases h : StdMap.find s.ref_memory addr with
  | none => rw [check_reference_absent data h]; simp
  | some v =>
    by_cases hv : v = data
    · subst hv; rw [check_reference_match v h]; simp
    · rw [check_reference_mismatch data h hv]; simp

theorem receive_body_queue (s : State) (data id u : Nat) :
    (receive_body s data id).2.queue u =
      if u = id then (s.queue id).tail else s.queue u := by
  simp only [receive_body, State.queue]
  rw [(check_reference_frame _ _ _).1]
  simp only [find_resolve_snd]
  split_ifs <;> simp

theorem receive_body_ref_memory (s : State) (data id : Nat) :
    (receive_body s data id).2.ref_memory = s.ref_memory := by
  simp only [receive_body]
  rw [check_reference_ref_memory]

theorem receive_body_frame (s : State) (data id : Nat) :
    (receive_body s data id).2.read_responses = s.read_responses + 1 ∧
    (receive_body s data id).2.time = s.time + 1 ∧
    (receive_body s data id).2.reads_sent = s.reads_sent ∧
    (receive_body s data id).2.writes_sent = s.writes_sent ∧
    (receive_body s data id).2.write_responses = s.write_responses ∧
    (receive_body s data id).2.rready = s.rready ∧
    (receive_body s data id).2.bready = s.bready := by
  simp only [receive_body]
  obtain ⟨_, h2, h3, h4, h5, h6, h7, h8⟩ :=
    check_reference_frame
      { s with pending_reads := (resolve s.pending_reads id).2,
               log := s.log ++ [Event.read_data_received s.time id
                 (resolve s.pending_reads id).1 data] }
      (resolve s.pending_reads id).1 data
  simp only [h2, h3, h4, h5, h6, h7, h8]
  simp

theorem receive_body_log_mem (s : State) (data id : Nat) :
    Event.read_data_received s.time id ((s.queue id).headD 0) data ∈
      (receive_body s data id).2.log := by
  simp only [receive_body, resolve_fst, State.queue]
  cases h : StdMap.find s.ref_memory (((StdMap.find s.pending_reads id).getD []).headD 0) with
  | none => rw [check_reference_absent data (by simpa using h)]; simp
  | some v =>
    by_cases hv : v = data
    · subst hv; rw [check_reference_match v (by simpa using h)]; simp
    · rw [check_reference_mismatch data (by simpa using h) hv]; simp

theorem receive_body_absent (s : State) (id data : Nat)
    (h : StdMap.find s.ref_memory ((s.queue id).headD 0) = none) :
    (receive_body s data id).2.read_matches = s.read_matches ∧
    (receive_body s data id).2.read_mismatches = s.read_mismatches := by
  simp only [receive_body, resolve_fst]
  rw [check_reference_absent data (by simpa [State.queue] using h)]
  simp

theorem receive_body_match (s : State) (id data : Nat)
    (h : StdMap.find s.ref_memory ((s.queue id).headD 0) = some data) :
    (receive_body s data id).2.read_matches = s.read_matches + 1 ∧
    (receive_body s data id).2.read_mismatches = s.read_mismatches := by
  simp only [receive_body, resolve_fst]
  rw [check_reference_match data (by simpa [State.queue] using h)]
  simp

theorem receive_body_mismatch (s : State) (id : Nat) {v : Nat} (data : Nat)
    (h : StdMap.find s.ref_memory ((s.queue id).headD 0) = some v) (hne : v ≠ data) :
    (receive_body s data id).2.read_matches = s.read_matches ∧
    (receive_body s data id).2.read_mismatches = s.read_mismatches + 1 := by
  simp only [receive_body, resolve_fst]
  rw [check_reference_mismatch data (by simpa [State.queue] using h) hne]
  simp

/-! ### Composite calls -/

theorem write_some {dev : Device} {fuel : Nat} {s s' : State} {addr data : Nat}
    (h : write dev fuel s addr data = some s') :
    ∃ s1 s2, send_write_addr dev fuel s addr = some s1 ∧
      send_write_data dev fuel s1 data = some s2 ∧
      await_write_response dev fuel
        { s2 with ref_memory := StdMap.assign s2.ref_memory addr data,
                  writes_sent := s2.writes_sent + 1 } = some s' := by
  simp only [write] at h
  cases h1 : send_write_addr dev fuel s addr with
  | none => simp [h1] at h
  | some s1 =>
    simp only [h1] at h
    cases h2 : send_write_data dev fuel s1 data with
    | none => simp [h2] at h
    | some s2 =>
      simp only [h2] at h
      exact ⟨s1, s2, rfl, h2, h⟩

theorem read_some {dev : Device} {fuel : Nat} {s : State} {addr id : Nat} {r : Nat × State}
    (h : read dev fuel s addr id = some r) :
    ∃ s1, send_read_addr dev fuel s addr id = some s1 ∧
      receive_read_data dev fuel s1 = some r := by
  simp only [read] at h
  cases h1 : send_read_addr dev fuel s addr id with
  | none => simp [h1] at h
  | some s1 => exact ⟨s1, rfl, by simpa [h1] using h⟩

/-! ### Termination against a responsive device -/

theorem do_while_total (cond : Nat → Bool) (fuel t : Nat)
    (h : ∃ k, 1 ≤ k ∧ k ≤ fuel ∧ cond (t + k) = false) :
    ∃ t', do_while cond fuel t = some t' := by
  classical
  have hex : ∃ k, 1 ≤ k ∧ cond (t + k) = false := by
    obtain ⟨k, h1, _, h3⟩ := h
    exact ⟨k, h1, h3⟩
  obtain ⟨k, hk1, hk2, hk3⟩ := h
  refine ⟨_, do_while_eq cond (Nat.find hex) fuel t (Nat.find_spec hex).1 ?_
    (Nat.find_spec hex).2 ?_⟩
  · exact le_trans (Nat.find_min' hex ⟨hk1, hk3⟩) hk2
  · intro j hj1 hj2
    have := Nat.find_min hex hj2
    simp only [not_and] at this
    simpa using this hj1

theorem while_do_total (cond : Nat → Bool) (fuel t : Nat)
    (h : ∃ k, k < fuel ∧ cond (t + k) = false) :
    ∃ t', while_do cond fuel t = some t' := by
  classical
  have hex : ∃ k, cond (t + k) = false := by
    obtain ⟨k, _, h3⟩ := h
    exact ⟨k, h3⟩
  obtain ⟨k, hk2, hk3⟩ := h
  refine ⟨_, while_do_eq cond (Nat.find hex) fuel t ?_ (Nat.find_spec hex) ?_⟩
  · exact lt_of_le_of_lt (Nat.find_min' hex hk3) hk2
  · intro j hj
    simpa using Nat.find_min hex hj

theorem send_write_addr_total {dev : Device} {L fuel : Nat} (hd : Responsive dev L)
    (hf : L ≤ fuel) (s : State) (addr : Nat) :
    ∃ s', send_write_addr dev fuel s addr = some s' := by
  obtain ⟨k, hk, hr⟩ := (hd (s.time + 1)).2.1
  obtain ⟨t, ht⟩ := do_while_total (fun t => !(dev t).awready) fuel s.time
    ⟨k + 1, by omega, by omega, by
      have : s.time + (k + 1) = s.time + 1 + k := by omega
      simp [this, hr]⟩
  simp [send_write_addr, ht]

theorem send_write_data_total {dev : Device} {L fuel : Nat} (hd : Responsive dev L)
    (hf : L ≤ fuel) (s : State) (data : Nat) :
    ∃ s', send_write_data dev fuel s data = some s' := by
  obtain ⟨k, hk, hr⟩ := (hd (s.time + 1)).2.2.1
  obtain ⟨t, ht⟩ := do_while_total (fun t => !(dev t).wready) fuel s.time
    ⟨k + 1, by omega, by omega, by
      have : s.time + (k + 1) = s.time + 1 + k := by omega
      simp [this, hr]⟩
  simp [send_write_data, ht]

theorem send_read_addr_total {dev : Device} {L fuel : Nat} (hd : Responsive dev L)
    (hf : L ≤ fuel) (s : State) (addr id : Nat) :
    ∃ s', send_read_addr dev fuel s addr id = some s' := by
  obtain ⟨k, hk, hr⟩ := (hd (s.time + 1)).1
  obtain ⟨t, ht⟩ := do_while_total (fun t => !(dev t).arready) fuel s.time
    ⟨k + 1, by omega, by omega, by
      have : s.time + (k + 1) = s.time + 1 + k := by omega
      simp [this, hr]⟩
  simp [send_read_addr, ht]

theorem await_write_response_total {dev : Device} {L fuel : Nat} (hd : Responsive dev L)
    (hf : L ≤ fuel) (s : State) (hb : s.bready = true) :
    ∃ s', await_write_response dev fuel s = some s' := by
  obtain ⟨k, hk, hr⟩ := (hd s.time).2.2.2.2
  obtain ⟨t, ht⟩ := while_do_total (fun t => !(dev t).bvalid || !s.bready) fuel s.time
    ⟨k, by omega, by simp [hr, hb]⟩
  simp [await_write_response, ht]

theorem receive_read_data_total {dev : Device} {L fuel : Nat} (hd : Responsive dev L)
    (hf : L ≤ fuel) (s : State) (hb : s.rready = true) :
    ∃ r, receive_read_data dev fuel s = some r := by
  obtain ⟨k, hk, hr⟩ := (hd s.time).2.2.2.1
  obtain ⟨t, ht⟩ := while_do_total (fun t => !(dev t).rvalid || !s.rready) fuel s.time
    ⟨k, by omega, by simp [hr, hb]⟩
  simp [receive_read_data, ht]

/-! ### What one driver statement preserves -/

theorem receive_read_data_preserves {dev : Device} {fuel : Nat} {s : State}
    {r : Nat × State} (h : receive_read_data dev fuel s = some r) :
    r.2.rready = s.rready ∧ r.2.bready = s.bready ∧
    (s.read_matches + s.read_mismatches ≤ s.read_responses →
      r.2.read_matches + r.2.read_mismatches ≤ r.2.read_responses) := by
  obtain ⟨k, _, _, _, _, hr⟩ := receive_read_data_some h
  subst hr
  obtain ⟨f1, _, _, _, _, f6, f7⟩ := receive_body_frame { s with time := s.time + k }
      (dev (s.time + k)).rdata (dev (s.time + k)).rid
  refine ⟨f6, f7, ?_⟩
  intro hinv
  rw [f1]
  cases hf : StdMap.find s.ref_memory
      ((State.queue { s with time := s.time + k } (dev (s.time + k)).rid).headD 0) with
  | none =>
    obtain ⟨g1, g2⟩ := receive_body_absent { s with time := s.time + k } (dev (s.time + k)).rid
      (dev (s.time + k)).rdata hf
    rw [g1, g2]; simp only; omega
  | some v =>
    by_cases hv : v = (dev (s.time + k)).rdata
    · obtain ⟨g1, g2⟩ := receive_body_match { s with time := s.time + k } (dev (s.time + k)).rid
        (dev (s.time + k)).rdata (hv ▸ hf)
      rw [g1, g2]; simp only; omega
    · obtain ⟨g1, g2⟩ := receive_body_mismatch { s with time := s.time + k } (dev (s.time + k)).rid
        (dev (s.time + k)).rdata hf hv
      rw [g1, g2]; simp only; omega

/-- One driver statement leaves `rready` and `bready` as they are and keeps
the bound of the checked reads by the read responses. -/
theorem step_preserves {dev : Device} {fuel : Nat} {s s' : State} {op : Op}
    (h : step dev fuel s op = some s') :
    s'.rready = s.rready ∧ s'.bready = s.bready ∧
    (s.read_matches + s.read_mismatches ≤ s.read_responses →
      s'.read_matches + s'.read_mismatches ≤ s'.read_responses) := by
  cases op with
  | wait_clocks n =>
    simp only [step, wait_clocks, Option.some.injEq] at h
    subst h; simp
  | send_write_addr addr =>
    obtain ⟨k, _, _, _, _, rfl⟩ := send_write_addr_some h
    simp
  | send_write_data data =>
    obtain ⟨k, _, _, _, _, rfl⟩ := send_write_data_some h
    simp
  | complete_write addr data =>
    obtain ⟨k, _, _, _, _, rfl⟩ := await_write_response_some h
    simp
  | write addr data =>
    obtain ⟨s1, s2, h1, h2, h3⟩ := write_some h
    obtain ⟨_, _, _, _, _, rfl⟩ := send_write_addr_some h1
    obtain ⟨_, _, _, _, _, rfl⟩ := send_write_data_some h2
    obtain ⟨_, _, _, _, _, rfl⟩ := await_write_response_some h3
    simp
  | send_read_addr addr id =>
    obtain ⟨k, _, _, _, _, rfl⟩ := send_read_addr_some h
    simp
  | receive_read_data =>
    simp only [step, Option.map_eq_some', Prod.exists, exists_eq_right] at h
    obtain ⟨d, h⟩ := h
    exact receive_read_data_preserves h
  | read addr id =>
    simp only [step, Option.map_eq_some', Prod.exists, exists_eq_right] at h
    obtain ⟨d, h⟩ := h
    obtain ⟨s1, h1, h2⟩ := read_some h
    obtain ⟨f1, f2, f3⟩ := receive_read_data_preserves h2
    obtain ⟨k1, _, _, _, _, rfl⟩ := send_read_addr_some h1
    exact ⟨f1, f2, f3⟩
  | print_stats =>
    simp only [step, Option.some.injEq] at h
    subst h; simp
  | sc_start n =>
    simp only [step, Option.some.injEq] at h
    subst h; simp
  | assign_ref_memory addr data =>
    simp only [step, Option.some.injEq] at h
    subst h; simp
  | incr_writes_sent =>
    simp only [step, Option.some.injEq] at h
    subst h; simp
  | await_write_response =>
    obtain ⟨k, _, _, _, _, rfl⟩ := await_write_response_some h
    simp

theorem run_preserves {dev : Device} {fuel : Nat} (ops : List Op) :
    ∀ {s s' : State}, run dev fuel s ops = some s' →
      s'.rready = s.rready ∧ s'.bready = s.bready ∧
      (s.read_matches + s.read_mismatches ≤ s.read_responses →
        s'.read_matches + s'.read_mismatches ≤ s'.read_responses) := by
  induction ops with
  | nil =>
    intro s s' h
    simp only [run, Option.some.injEq] at h
    subst h; simp
  | cons op ops ih =>
    intro s s' h
    simp only [run] at h
    cases h1 : step dev fuel s op with
    | none => simp [h1] at h
    | some s1 =>
      simp only [h1] at h
      obtain ⟨a1, a2, a3⟩ := step_preserves h1
      obtain ⟨b1, b2, b3⟩ := ih h
      exact ⟨b1.trans a1, b2.trans a2, fun hinv => b3 (a3 hinv)⟩

theorem step_total {dev : Device} {L fuel : Nat} (hd : Responsive dev L) (hf : L ≤ fuel)
    (s : State) (hr : s.rready = true) (hb : s.bready = true) (op : Op) :
    ∃ s', step dev fuel s op = some s' := by
  cases op with
  | wait_clocks n => exact ⟨_, rfl⟩
  | send_write_addr addr => exact send_write_addr_total hd hf s addr
  | send_write_data data => exact send_write_data_total hd hf s data
  | complete_write addr data =>
    exact await_write_response_total hd hf _ hb
  | write addr data =>
    obtain ⟨s1, h1⟩ := send_write_addr_total hd hf s addr
    obtain ⟨s2, h2⟩ := send_write_data_total hd hf s1 data
    have hb2 : s2.bready = true := by
      obtain ⟨_, _, _, _, _, rfl⟩ := send_write_addr_some h1
      obtain ⟨_, _, _, _, _, rfl⟩ := send_write_data_some h2
      exact hb
    obtain ⟨s3, h3⟩ := await_write_response_total hd hf
      { s2 with ref_memory := StdMap.assign s2.ref_memory addr data,
                writes_sent := s2.writes_sent + 1 } hb2
    exact ⟨s3, by simp [step, write, h1, h2, complete_write, h3]⟩
  | send_read_addr addr id => exact send_read_addr_total hd hf s addr id
  | receive_read_data =>
    obtain ⟨r, h⟩ := receive_read_data_total hd hf s hr
    exact ⟨r.2, by simp [step, h]⟩
  | read addr id =>
    obtain ⟨s1, h1⟩ := send_read_addr_total hd hf s addr id
    have hr1 : s1.rready = true := by
      obtain ⟨_, _, _, _, _, rfl⟩ := send_read_addr_some h1
      exact hr
    obtain ⟨r, h⟩ := receive_read_data_total hd hf s1 hr1
    exact ⟨r.2, by simp [step, read, h1, h]⟩
  | print_stats => exact ⟨_, rfl⟩
  | sc_start n => exact ⟨_, rfl⟩
  | assign_ref_memory addr data => exact ⟨_, rfl⟩
  | incr_writes_sent => exact ⟨_, rfl⟩
  | await_write_response => exact await_write_response_total hd hf s hb

theorem run_total {dev : Device} {L fuel : Nat} (hd : Responsive dev L) (hf : L ≤ fuel)
    (ops : List Op) :
    ∀ (s : State), s.rready = true → s.bready = true →
      ∃ s', run dev fuel s ops = some s' := by
  induction ops with
  | nil => intro s _ _; exact ⟨s, rfl⟩
  | cons op ops ih =>
    intro s hr hb
    obtain ⟨s1, h1⟩ := step_total hd hf s hr hb op
    obtain ⟨a1, a2, _⟩ := step_preserves h1
    obtain ⟨s2, h2⟩ := ih s1 (a1.trans hr) (a2.trans hb)
    exact ⟨s2, by simp [run, h1, h2]⟩

theorem responsive_prompt (data id : Nat) : Responsive (Device.prompt data id) 1 := by
  intro t
  exact ⟨⟨0, by omega, rfl⟩, ⟨0, by omega, rfl⟩, ⟨0, by omega, rfl⟩, ⟨0, by omega, rfl⟩,
    ⟨0, by omega, rfl⟩⟩

/-! ### Effects of the calls on the checked data -/

theorem write_effect {dev : Device} {fuel : Nat} {s s' : State} {addr data : Nat}
    (h : write dev fuel s addr data = some s') :
    s'.ref_memory = StdMap.assign s.ref_memory addr data ∧
    s'.pending_reads = s.pending_reads ∧
    s'.writes_sent = s.writes_sent + 1 ∧
    s'.write_responses = s.write_responses + 1 ∧
    s'.reads_sent = s.reads_sent ∧
    s'.read_responses = s.read_responses ∧
    s'.read_matches = s.read_matches ∧
    s'.read_mismatches = s.read_mismatches := by
  obtain ⟨s1, s2, h1, h2, h3⟩ := write_some h
  obtain ⟨_, _, _, _, _, rfl⟩ := send_write_addr_some h1
  obtain ⟨_, _, _, _, _, rfl⟩ := send_write_data_some h2
  obtain ⟨_, _, _, _, _, rfl⟩ := await_write_response_some h3
  simp

theorem queue_push (p : StdMap (List Nat)) (id addr u : Nat) :
    (StdMap.find (StdMap.assign (StdMap.index p id []).2 id
        ((StdMap.index p id []).1 ++ [addr])) u).getD [] =
      if u = id then (StdMap.find p id).getD [] ++ [addr] else (StdMap.find p u).getD [] := by
  rw [StdMap.find_assign, StdMap.index_fst, StdMap.find_index_snd]
  split_ifs <;> simp

theorem send_read_addr_effect {dev : Device} {fuel : Nat} {s s' : State} {addr id : Nat}
    (h : send_read_addr dev fuel s addr id = some s') :
    (∀ u, s'.queue u = if u = id then s.queue id ++ [addr] else s.queue u) ∧
    s'.ref_memory = s.ref_memory ∧
    s'.reads_sent = s.reads_sent + 1 ∧
    s'.read_responses = s.read_responses ∧
    s'.read_matches = s.read_matches ∧
    s'.read_mismatches = s.read_mismatches ∧
    s'.writes_sent = s.writes_sent ∧
    s'.write_responses = s.write_responses ∧
    s'.rready = s.rready ∧
    s'.log = s.log ++ [Event.read_addr_sent s'.time addr id] := by
  obtain ⟨_, _, _, _, _, rfl⟩ := send_read_addr_some h
  refine ⟨fun u => ?_, rfl, rfl, rfl, rfl, rfl, rfl, rfl, rfl, rfl⟩
  simp only [State.queue]
  exact queue_push s.pending_reads id addr u

/-! ### One response, in full -/

theorem responses_append (l1 l2 : List Event) :
    responses (l1 ++ l2) = responses l1 ++ responses l2 := by
  induction l1 with
  | nil => rfl
  | cons e es ih => cases e <;> simp [responses, ih]

theorem responses_error_lines (ref : StdMap Nat) (addr data : Nat) :
    responses (error_lines ref addr data) = [] := by
  cases h : StdMap.find ref addr with
  | none => simp [error_lines, h, responses]
  | some v =>
    by_cases hv : v = data
    · simp [error_lines, h, hv, responses]
    · simp [error_lines, h, hv, responses]

theorem receive_body_log (s : State) (data id : Nat) :
    (receive_body s data id).2.log =
      s.log ++ Event.read_data_received s.time id ((s.queue id).headD 0) data ::
        error_lines s.ref_memory ((s.queue id).headD 0) data := by
  simp only [receive_body, resolve_fst, State.queue, error_lines]
  cases h : StdMap.find s.ref_memory (((StdMap.find s.pending_reads id).getD []).headD 0) with
  | none => rw [check_reference_absent data (by simpa using h)]
  | some v =>
    by_cases hv : v = data
    · subst hv; rw [check_reference_match v (by simpa using h)]; simp
    · rw [check_reference_mismatch data (by simpa using h) hv]; simp [hv]

theorem receive_body_counts (s : State) (data id : Nat) :
    (receive_body s data id).2.read_matches =
      s.read_matches +
        (if is_match s.ref_memory (id, (s.queue id).headD 0, data) then 1 else 0) ∧
    (receive_body s data id).2.read_mismatches =
      s.read_mismatches +
        (if is_mismatch s.ref_memory (id, (s.queue id).headD 0, data) then 1 else 0) := by
  cases h : StdMap.find s.ref_memory ((s.queue id).headD 0) with
  | none =>
    obtain ⟨g1, g2⟩ := receive_body_absent s id data h
    rw [g1, g2]
    simp only [is_match, is_mismatch, h]
    simp
  | some v =>
    by_cases hv : v = data
    · subst hv
      obtain ⟨g1, g2⟩ := receive_body_match s id v h
      rw [g1, g2]
      simp only [is_match, is_mismatch, h]
      simp
    · obtain ⟨g1, g2⟩ := receive_body_mismatch s id data h hv
      rw [g1, g2]
      simp only [is_match, is_mismatch, h]
      simp [hv]

/-- Everything a completed `receive_read_data` call does to the checked
data, in terms of the response (tag, data) it took. -/
theorem receive_read_data_effect {dev : Device} {fuel : Nat} {s : State} {r : Nat × State}
    (h : receive_read_data dev fuel s = some r) :
    ∃ id evs, r.2.log = s.log ++ evs ∧
      responses evs = [(id, (s.queue id).headD 0, r.1)] ∧
      (∀ u, r.2.queue u = if u = id then (s.queue id).tail else s.queue u) ∧
      r.2.ref_memory = s.ref_memory ∧
      r.2.read_matches = s.read_matches +
        (if is_match s.ref_memory (id, (s.queue id).headD 0, r.1) then 1 else 0) ∧
      r.2.read_mismatches = s.read_mismatches +
        (if is_mismatch s.ref_memory (id, (s.queue id).headD 0, r.1) then 1 else 0) := by
  obtain ⟨k, _, _, _, _, hr⟩ := receive_read_data_some h
  subst hr
  refine ⟨(dev (s.time + k)).rid, _, receive_body_log _ _ _, ?_, ?_, ?_, ?_⟩
  · simp only [responses, responses_error_lines]
    rfl
  · intro u
    exact receive_body_queue _ _ _ u
  · exact receive_body_ref_memory _ _ _
  · exact receive_body_counts { s with time := s.time + k } _ _

theorem run_cons_some {dev : Device} {fuel : Nat} {s s2 : State} {op : Op} {ops : List Op}
    (h : run dev fuel s (op :: ops) = some s2) :
    ∃ s1, step dev fuel s op = some s1 ∧ run dev fuel s1 ops = some s2 := by
  simp only [run] at h
  cases h1 : step dev fuel s op with
  | none => simp [h1] at h
  | some s1 => exact ⟨s1, rfl, by simpa [h1] using h⟩

theorem step_receive_some {dev : Device} {fuel : Nat} {s s1 : State}
    (h : step dev fuel s Op.receive_read_data = some s1) :
    ∃ d, receive_read_data dev fuel s = some (d, s1) := by
  simpa [step] using h

/-! ### Runs of read-address calls and of responses -/

theorem run_sends {dev : Device} {fuel : Nat} (sends : List (Nat × Nat)) :
    ∀ {s s1 : State},
      run dev fuel s (sends.map (fun p => Op.send_read_addr p.1 p.2)) = some s1 →
      (∀ u, s1.queue u =
        s.queue u ++ (sends.filter (fun p => p.2 = u)).map Prod.fst) ∧
      s1.ref_memory = s.ref_memory ∧
      s1.read_matches = s.read_matches ∧
      s1.read_mismatches = s.read_mismatches ∧
      s1.read_responses = s.read_responses ∧
      s1.reads_sent = s.reads_sent + sends.length := by
  induction sends with
  | nil =>
    intro s s1 h
    simp only [List.map_nil, run, Option.some.injEq] at h
    subst h; simp
  | cons p ps ih =>
    intro s s1 h
    obtain ⟨s', h1, h2⟩ := run_cons_some (by simpa using h)
    obtain ⟨e1, e2, e3, e4, e5, e6, _, _, _, _⟩ := send_read_addr_effect h1
    obtain ⟨i1, i2, i3, i4, i5, i6⟩ := ih h2
    refine ⟨fun u => ?_, i2.trans e2, i3.trans e5, i4.trans e6, i5.trans e4, ?_⟩
    · rw [i1 u, e1 u]
      by_cases hu : u = p.2
      · subst hu; simp [List.filter_cons]
      · have : ¬ p.2 = u := fun e => hu e.symm
        simp [List.filter_cons, hu, this]
    · rw [i6, e3]
      simp only [List.length_cons, Nat.cast_add, Nat.cast_one]
      ring

/-- Addresses attributed to the responses of tag `t` in a run of responses,
against the queue `t` had before the run: each list is a prefix of the
other up to the shorter length. -/
theorem run_receives_fifo {dev : Device} {fuel : Nat} (t : Nat) (m : Nat) :
    ∀ {s s2 : State},
      run dev fuel s (List.replicate m Op.receive_read_data) = some s2 →
      ∃ evs, s2.log = s.log ++ evs ∧ (responses evs).length = m ∧
        (((responses evs).filter (fun r => r.1 = t)).map (fun r => r.2.1)).take
            (s.queue t).length =
          (s.queue t).take ((responses evs).filter (fun r => r.1 = t)).length := by
  induction m with
  | zero =>
    intro s s2 h
    simp only [List.replicate_zero, run, Option.some.injEq] at h
    subst h
    exact ⟨[], by simp, rfl, by simp [responses]⟩
  | succ n ih =>
    intro s s2 h
    obtain ⟨s1, h1, h2⟩ := run_cons_some (by simpa [List.replicate_succ] using h)
    obtain ⟨d, h1⟩ := step_receive_some h1
    obtain ⟨id, evs1, e1, e2, e3, _, _, _⟩ := receive_read_data_effect h1
    obtain ⟨evs2, i1, i2, i3⟩ := ih h2
    simp only at e1 e3
    refine ⟨evs1 ++ evs2, by rw [i1, e1, List.append_assoc], ?_, ?_⟩
    · rw [responses_append, e2, List.length_append, i2]
      simp only [List.length_singleton]; omega
    · rw [responses_append, e2]
      rw [e3 t] at i3
      by_cases ht : t = id
      · subst ht
        simp only [if_true] at i3
        cases hq : s.queue t with
        | nil => simp
        | cons a rest =>
          rw [hq] at i3
          simp only [List.tail_cons] at i3
          simp [List.filter_cons, i3]
      · have hne : ¬ id = t := fun e => ht e.symm
        simp only [if_neg ht] at i3
        simpa [List.filter_cons, hne] using i3

/-- A run of responses whose tags are pairwise distinct: each response is
attributed to the head of its tag's queue as it was before the run. -/
theorem run_receives_nodup {dev : Device} {fuel : Nat} (m : Nat) :
    ∀ {s s2 : State},
      run dev fuel s (List.replicate m Op.receive_read_data) = some s2 →
      ∃ evs, s2.log = s.log ++ evs ∧ (responses evs).length = m ∧
        s2.ref_memory = s.ref_memory ∧
        s2.read_matches =
          s.read_matches + ((responses evs).countP (is_match s.ref_memory) : Nat) ∧
        s2.read_mismatches =
          s.read_mismatches + ((responses evs).countP (is_mismatch s.ref_memory) : Nat) ∧
        (((responses evs).map (fun r => r.1)).Nodup →
          (∀ r ∈ responses evs, r.2.1 = (s.queue r.1).headD 0) ∧
          ∀ u, s2.queue u =
            if u ∈ (responses evs).map (fun r => r.1) then (s.queue u).tail else s.queue u) := by
  induction m with
  | zero =>
    intro s s2 h
    simp only [List.replicate_zero, run, Option.some.injEq] at h
    subst h
    exact ⟨[], by simp, rfl, rfl, by simp [responses], by simp [responses],
      fun _ => ⟨by simp [responses], by simp [responses]⟩⟩
  | succ n ih =>
    intro s s2 h
    obtain ⟨s1, h1, h2⟩ := run_cons_some (by simpa [List.replicate_succ] using h)
    obtain ⟨d, h1⟩ := step_receive_some h1
    obtain ⟨id, evs1, e1, e2, e3, e4, e5, e6⟩ := receive_read_data_effect h1
    obtain ⟨evs2, i1, i2, i3, i4, i5, i6⟩ := ih h2
    simp only at e1 e3 e4 e5 e6
    refine ⟨evs1 ++ evs2, by rw [i1, e1, List.append_assoc], ?_, i3.trans e4, ?_, ?_, ?_⟩
    · rw [responses_append, e2, List.length_append, i2]
      simp only [List.length_singleton]; omega
    · rw [i4, e5, e4, responses_append, e2]
      simp only [List.singleton_append, List.countP_cons]
      split_ifs <;> push_cast <;> ring
    · rw [i5, e6, e4, responses_append, e2]
      simp only [List.singleton_append, List.countP_cons]
      split_ifs <;> push_cast <;> ring
    · rw [responses_append, e2]
      simp only [List.singleton_append, List.map_cons, List.nodup_cons]
      intro ⟨hnot, hnd⟩
      obtain ⟨j1, j2⟩ := i6 hnd
      constructor
      · intro r hr
        rcases List.mem_cons.1 hr with hr | hr
        · rw [hr]
        · have hne : r.1 ≠ id := by
            intro e
            exact hnot (e ▸ List.mem_map_of_mem (fun r => r.1) hr)
          rw [j1 r hr, e3 r.1, if_neg hne]
      · intro u
        rw [j2 u, e3 u]
        by_cases hu : u = id
        · subst hu
          simp [hnot]
        · simp only [if_neg hu, List.mem_cons, hu, false_or, if_false]

/-! ### Reference memory and `writes_sent` along a run -/

theorem step_ref_effect {dev : Device} {fuel : Nat} {s s' : State} {op : Op}
    (h : step dev fuel s op = some s') :
    (s'.ref_memory, s'.writes_sent) = op.ref_effect (s.ref_memory, s.writes_sent) := by
  cases op with
  | wait_clocks n =>
    simp only [step, wait_clocks, Option.some.injEq] at h
    subst h; rfl
  | send_write_addr addr =>
    obtain ⟨k, _, _, _, _, rfl⟩ := send_write_addr_some h
    rfl
  | send_write_data data =>
    obtain ⟨k, _, _, _, _, rfl⟩ := send_write_data_some h
    rfl
  | complete_write addr data =>
    obtain ⟨k, _, _, _, _, rfl⟩ := await_write_response_some h
    rfl
  | write addr data =>
    obtain ⟨e1, _, e3, _⟩ := write_effect h
    simp only [Op.ref_effect, e1, e3]
  | send_read_addr addr id =>
    obtain ⟨k, _, _, _, _, rfl⟩ := send_read_addr_some h
    rfl
  | receive_read_data =>
    obtain ⟨d, h⟩ := step_receive_some h
    obtain ⟨k, _, _, _, _, hr⟩ := receive_read_data_some h
    have hs : s' = (receive_body { s with time := s.time + k }
        (dev (s.time + k)).rdata (dev (s.time + k)).rid).2 := by rw [← hr]
    subst hs
    simp only [Op.ref_effect, receive_body_ref_memory,
      (receive_body_frame _ _ _).2.2.2.1]
  | read addr id =>
    simp only [step, Option.map_eq_some', Prod.exists, exists_eq_right] at h
    obtain ⟨d, h⟩ := h
    obtain ⟨s1, h1, h2⟩ := read_some h
    obtain ⟨_, e2, _, _, _, _, e7, _⟩ := send_read_addr_effect h1
    obtain ⟨k, _, _, _, _, hr⟩ := receive_read_data_some h2
    have hs : s' = (receive_body { s1 with time := s1.time + k }
        (dev (s1.time + k)).rdata (dev (s1.time + k)).rid).2 := by rw [← hr]
    subst hs
    simp only [Op.ref_effect, receive_body_ref_memory,
      (receive_body_frame _ _ _).2.2.2.1, e2, e7]
  | print_stats =>
    simp only [step, Option.some.injEq] at h
    subst h; rfl
  | sc_start n =>
    simp only [step, Option.some.injEq] at h
    subst h; rfl
  | assign_ref_memory addr data =>
    simp only [step, Option.some.injEq] at h
    subst h; rfl
  | incr_writes_sent =>
    simp only [step, Option.some.injEq] at h
    subst h; rfl
  | await_write_response =>
    obtain ⟨k, _, _, _, _, rfl⟩ := await_write_response_some h
    rfl

theorem run_ref_effect {dev : Device} {fuel : Nat} (ops : List Op) :
    ∀ {s s' : State}, run dev fuel s ops = some s' →
      (s'.ref_memory, s'.writes_sent) =
        ops.foldl (fun x op => op.ref_effect x) (s.ref_memory, s.writes_sent) := by
  induction ops with
  | nil =>
    intro s s' h
    simp only [run, Option.some.injEq] at h
    subst h; rfl
  | cons op ops ih =>
    intro s s' h
    obtain ⟨s1, h1, h2⟩ := run_cons_some h
    rw [ih h2, step_ref_effect h1]
    rfl

theorem foldl_send_write_addr (addrs : List Nat) (x : StdMap Nat × Int) :
    (addrs.map Op.send_write_addr).foldl (fun x op => op.ref_effect x) x = x := by
  induction addrs with
  | nil => rfl
  | cons a rest ih => simpa [Op.ref_effect] using ih

theorem foldl_send_write_data (datas : List Nat) (x : StdMap Nat × Int) :
    (datas.map Op.send_write_data).foldl (fun x op => op.ref_effect x) x = x := by
  induction datas with
  | nil => rfl
  | cons a rest ih => simpa [Op.ref_effect] using ih

theorem foldl_await_write_response (n : Nat) (x : StdMap Nat × Int) :
    (List.replicate n Op.await_write_response).foldl (fun x op => op.ref_effect x) x = x := by
  induction n with
  | zero => rfl
  | succ n ih => simpa [List.replicate_succ, Op.ref_effect] using ih

theorem foldl_pairwise (ps : List (Nat × Nat)) :
    ∀ x : StdMap Nat × Int,
      (ps.map (fun p => Op.write p.1 p.2)).foldl (fun x op => op.ref_effect x) x =
        (ps.foldl (fun m p => StdMap.assign m p.1 p.2) x.1, x.2 + ps.length) := by
  induction ps with
  | nil => intro x; simp
  | cons p rest ih =>
    intro x
    show (rest.map (fun p => Op.write p.1 p.2)).foldl (fun x op => op.ref_effect x)
      ((Op.write p.1 p.2).ref_effect x) = _
    rw [ih]
    simp only [Op.ref_effect, List.foldl_cons, List.length_cons, Nat.cast_add, Nat.cast_one]
    congr 1
    ring

theorem foldl_record_after_data (ps : List (Nat × Nat)) :
    ∀ x : StdMap Nat × Int,
      (record_after_data ps).foldl (fun x op => op.ref_effect x) x =
        (ps.foldl (fun m p => StdMap.assign m p.1 p.2) x.1, x.2 + ps.length) := by
  induction ps with
  | nil => intro x; simp [record_after_data]
  | cons p rest ih =>
    intro x
    obtain ⟨a, d⟩ := p
    show (record_after_data rest).foldl (fun x op => op.ref_effect x)
      (Op.incr_writes_sent.ref_effect ((Op.assign_ref_memory a d).ref_effect
        ((Op.send_write_data d).ref_effect x))) = _
    rw [ih]
    simp only [Op.ref_effect, List.foldl_cons, List.length_cons, Nat.cast_add, Nat.cast_one]
    congr 1
    ring

theorem foldl_record_after_addr (ps : List (Nat × Nat)) :
    ∀ x : StdMap Nat × Int,
      (record_after_addr ps).foldl (fun x op => op.ref_effect x) x =
        (ps.foldl (fun m p => StdMap.assign m p.1 p.2) x.1, x.2 + ps.length) := by
  induction ps with
  | nil => intro x; simp [record_after_addr]
  | cons p rest ih =>
    intro x
    obtain ⟨a, d⟩ := p
    show (record_after_addr rest).foldl (fun x op => op.ref_effect x)
      (Op.incr_writes_sent.ref_effect ((Op.assign_ref_memory a d).ref_effect
        ((Op.send_write_addr a).ref_effect x))) = _
    rw [ih]
    simp only [Op.ref_effect, List.foldl_cons, List.length_cons, Nat.cast_add, Nat.cast_one]
    congr 1
    ring

theorem foldl_keeps_find (addr : Nat) (ops : List Op) :
    ∀ x : StdMap Nat × Int, (∀ op ∈ ops, op.writes_to addr = false) →
      StdMap.find (ops.foldl (fun x op => op.ref_effect x) x).1 addr = StdMap.find x.1 addr := by
  induction ops with
  | nil => intro x _; rfl
  | cons op rest ih =>
    intro x h
    simp only [List.foldl_cons]
    rw [ih _ (fun o ho => h o (List.mem_cons_of_mem _ ho))]
    have h0 := h op (List.mem_cons_self _ _)
    cases op <;> simp only [Op.ref_effect] <;>
      simp only [Op.writes_to, beq_eq_false_iff_ne, ne_eq] at h0 <;>
      rw [StdMap.find_assign, if_neg (fun e => h0 e.symm)]

theorem responsive_replay (rs : List (Nat × Nat)) (t0 : Nat) :
    Responsive (Device.replay rs t0) 1 := by
  intro t
  exact ⟨⟨0, by omega, rfl⟩, ⟨0, by omega, rfl⟩, ⟨0, by omega, rfl⟩, ⟨0, by omega, rfl⟩,
    ⟨0, by omega, rfl⟩⟩

/-! ## Claims -/

/-- C10: when `awready` is observed high after some positive number of
ticks, `send_write_addr(addr)` returns after exactly `k` ticks, `k ≥ 1`
being the least positive tick count at which `awready` is high (a budget of
fewer than `k` loop iterations does not reach the exit); on return `awaddr`
holds `addr`, `awvalid` is low, and no counter, reference-memory entry or
pending queue has changed. -/
theorem send_write_addr_handshake_timing (dev : Device) (s : State) (addr : Nat)
    (h : ∃ n, 1 ≤ n ∧ (dev (s.time + n)).awready = true) :
    ∃ k, 1 ≤ k ∧ (dev (s.time + k)).awready = true ∧
      (∀ j, 1 ≤ j → j < k → (dev (s.time + j)).awready = false) ∧
      (∀ fuel, fuel < k → send_write_addr dev fuel s addr = none) ∧
      ∀ fuel, k ≤ fuel →
        ∃ s', send_write_addr dev fuel s addr = some s' ∧
          s'.time = s.time + k ∧ s'.awaddr = addr ∧ s'.awvalid = false ∧
          s'.ref_memory = s.ref_memory ∧ s'.pending_reads = s.pending_reads ∧
          s'.writes_sent = s.writes_sent ∧ s'.reads_sent = s.reads_sent ∧
          s'.write_responses = s.write_responses ∧
          s'.read_responses = s.read_responses ∧
          s'.read_matches = s.read_matches ∧
          s'.read_mismatches = s.read_mismatches := by
  classical
  have hex : ∃ n, 1 ≤ n ∧ (dev (s.time + n)).awready = true := h
  refine ⟨Nat.find hex, (Nat.find_spec hex).1, (Nat.find_spec hex).2, ?_, ?_, ?_⟩
  · intro j hj1 hj2
    have := Nat.find_min hex hj2
    simp only [not_and] at this
    simpa using this hj1
  · intro fuel hfuel
    cases hres : send_write_addr dev fuel s addr with
    | none => rfl
    | some s' =>
      exfalso
      obtain ⟨k, hk1, hk2, hk3, _, _⟩ := send_write_addr_some hres
      have := Nat.find_min' hex ⟨hk1, hk3⟩
      omega
  · intro fuel hfuel
    have hmin : ∀ j, 1 ≤ j → j < Nat.find hex → (dev (s.time + j)).awready = false := by
      intro j hj1 hj2
      have := Nat.find_min hex hj2
      simp only [not_and] at this
      simpa using this hj1
    refine ⟨_, send_write_addr_eq dev s addr (Nat.find hex) fuel (Nat.find_spec hex).1 hfuel
      (Nat.find_spec hex).2 hmin, ?_⟩
    simp

/-- Witness for C10: a device raising `awready` at time 3, from the initial
state. -/
theorem send_write_addr_handshake_timing_witness :
    ∃ k, 1 ≤ k ∧ (Device.late 3 0 0 (State.init.time + k)).awready = true ∧
      (∀ j, 1 ≤ j → j < k → (Device.late 3 0 0 (State.init.time + j)).awready = false) ∧
      (∀ fuel, fuel < k → send_write_addr (Device.late 3 0 0) fuel State.init 0x20 = none) ∧
      ∀ fuel, k ≤ fuel →
        ∃ s', send_write_addr (Device.late 3 0 0) fuel State.init 0x20 = some s' ∧
          s'.time = State.init.time + k ∧ s'.awaddr = 0x20 ∧ s'.awvalid = false ∧
          s'.ref_memory = State.init.ref_memory ∧
          s'.pending_reads = State.init.pending_reads ∧
          s'.writes_sent = State.init.writes_sent ∧ s'.reads_sent = State.init.reads_sent ∧
          s'.write_responses = State.init.write_responses ∧
          s'.read_responses = State.init.read_responses ∧
          s'.read_matches = State.init.read_matches ∧
          s'.read_mismatches = State.init.read_mismatches :=
  send_write_addr_handshake_timing (Device.late 3 0 0) State.init 0x20 ⟨3, by decide, by decide⟩

/-- C5: the exit status is 0 exactly when `read_mismatches` is 0 and is 1
otherwise; `print_stats` prints the line `TEST PASSED` exactly when the exit
status is 0 and the line `TEST FAILED` exactly when it is not; two states
with the same `read_mismatches` get the same exit status and the same
verdict line, whatever their other counters. -/
theorem verdict_iff_no_mismatch (s : State) :
    (exit_status s = 0 ↔ s.read_mismatches = 0) ∧
    (exit_status s = 0 ∨ exit_status s = 1) ∧
    ("         *** TEST PASSED ***" ∈ print_stats s ↔ exit_status s = 0) ∧
    ("         *** TEST FAILED ***" ∈ print_stats s ↔ exit_status s ≠ 0) ∧
    (print_stats s)[10]? =
      some (if exit_status s = 0 then "         *** TEST PASSED ***"
            else "         *** TEST FAILED ***") ∧
    ∀ s' : State, s'.read_mismatches = s.read_mismatches →
      exit_status s' = exit_status s ∧ (print_stats s')[10]? = (print_stats s)[10]? := by
  have hne : ∀ (a x b : String), (a ++ x = b) → a.data.head? = b.data.head? ∨ a = "" := by
    intro a x b hab
    have h2 := congrArg (fun s => s.data.head?) hab
    simp only [String.data_append] at h2
    by_cases ha : a.data = []
    · right
      cases a
      simp_all
    · left
      rw [← h2]
      cases hd : a.data with
      | nil => exact absurd hd ha
      | cons c cs => simp
  have counter_line : ∀ (a x b : String), a.data.head? ≠ b.data.head? → a ≠ "" →
      ¬ (b = a ++ x) := by
    intro a x b h1 h2 h3
    rcases hne a x b h3.symm with h | h
    · exact h1 h
    · exact h2 h
  by_cases hm : s.read_mismatches = 0
  · refine ⟨by simp [exit_status, hm], by simp [exit_status, hm], ?_, ?_, ?_, ?_⟩
    · simp only [exit_status, hm, if_true, iff_true]
      simp [print_stats, hm]
    · simp only [exit_status, hm, if_true, ne_eq, not_true_eq_false, iff_false]
      simp only [print_stats, hm, if_true, List.mem_cons, List.mem_singleton, not_or,
        List.mem_nil_iff, or_false]
      refine ⟨by decide, by decide, by decide, ?_, ?_, ?_, ?_, ?_, ?_, by decide, by decide,
        by decide⟩ <;> exact counter_line _ _ _ (by decide) (by decide)
    · simp [print_stats, exit_status, hm]
    · intro s' hs'
      simp [print_stats, exit_status, hm, hs']
  · refine ⟨by simp [exit_status, hm], by simp [exit_status, hm], ?_, ?_, ?_, ?_⟩
    · simp only [exit_status, hm, if_false, one_ne_zero, iff_false]
      simp only [print_stats, hm, if_false, List.mem_cons, List.mem_singleton, not_or,
        List.mem_nil_iff, or_false]
      refine ⟨by decide, by decide, by decide, ?_, ?_, ?_, ?_, ?_, ?_, by decide, by decide,
        by decide⟩ <;> exact counter_line _ _ _ (by decide) (by decide)
    · simp only [exit_status, hm, if_false, ne_eq, one_ne_zero, not_false_eq_true, iff_true]
      simp [print_stats, hm]
    · simp [print_stats, exit_status, hm]
    · intro s' hs'
      simp [print_stats, exit_status, hm, hs']

/-- Witness for C5: the initial state and a state differing from it in
`read_matches` only. -/
theorem verdict_iff_no_mismatch_witness :
    exit_status { State.init with read_matches := 7 } = exit_status State.init ∧
    (print_stats { State.init with read_matches := 7 })[10]? = (print_stats State.init)[10]? :=
  (verdict_iff_no_mismatch State.init).2.2.2.2.2 { State.init with read_matches := 7 } rfl

/-- C8: when the pending queue of tag `t` is empty (or `t` has no entry) and
the response that `receive_read_data` takes carries tag `t`, the call
returns the device's data and uses address 0 as the expected address: the
printed line shows address 0; if address 0 is in the reference memory,
`read_matches` grows by one when the data equals `ref_memory[0]` and
`read_mismatches` grows by one otherwise; every tag keeps the queue it had
and the queue of `t` is still empty. -/
theorem response_without_pending_entry (dev : Device) (s : State) (k fuel t : Nat)
    (hr : s.rready = true) (hfuel : k < fuel)
    (hvalid : (dev (s.time + k)).rvalid = true)
    (hmin : ∀ j, j < k → (dev (s.time + j)).rvalid = false)
    (hid : (dev (s.time + k)).rid = t) (hq : s.queue t = []) :
    ∃ s', receive_read_data dev fuel s = some ((dev (s.time + k)).rdata, s') ∧
      Event.read_data_received (s.time + k) t 0 (dev (s.time + k)).rdata ∈ s'.log ∧
      (∀ v, StdMap.find s.ref_memory 0 = some v →
        ((dev (s.time + k)).rdata = v →
          s'.read_matches = s.read_matches + 1 ∧ s'.read_mismatches = s.read_mismatches) ∧
        ((dev (s.time + k)).rdata ≠ v →
          s'.read_mismatches = s.read_mismatches + 1 ∧ s'.read_matches = s.read_matches)) ∧
      (∀ u, s'.queue u = s.queue u) ∧ s'.queue t = [] := by
  have hq' : State.queue { s with time := s.time + k } t = [] := hq
  refine ⟨(receive_body { s with time := s.time + k }
      (dev (s.time + k)).rdata (dev (s.time + k)).rid).2, ?_, ?_, ?_, ?_, ?_⟩
  · rw [receive_read_data_eq dev s k fuel hr hfuel hvalid hmin]
    rfl
  · have := receive_body_log_mem { s with time := s.time + k } (dev (s.time + k)).rdata
      (dev (s.time + k)).rid
    rw [hid, hq'] at this
    rw [hid]
    exact this
  · intro v hv
    rw [hid]
    have hv' : StdMap.find ({ s with time := s.time + k } : State).ref_memory
        ((State.queue { s with time := s.time + k } t).headD 0) = some v := by
      rw [hq']; exact hv
    constructor
    · intro hd
      have := receive_body_match { s with time := s.time + k } t
        (dev (s.time + k)).rdata (hd ▸ hv')
      exact this
    · intro hd
      have := receive_body_mismatch { s with time := s.time + k } t
        (dev (s.time + k)).rdata hv' (fun e => hd e.symm)
      exact ⟨this.2, this.1⟩
  · intro u
    rw [receive_body_queue, hid]
    split_ifs with hu
    · subst hu; rw [hq', hq]; rfl
    · rfl
  · rw [receive_body_queue, hid, if_pos rfl, hq']; rfl

/-- Witness for C8: address 0 holds 5 in the reference memory and address
`0x04` is pending under tag 2.  A response with tag 7, which was never
recorded, carrying 5 counts a match; a response with tag 7, whose queue is
present and empty, carrying 6 counts a mismatch; both are printed with
address 0, tag 2 keeps its pending address and tag 7 has nothing pending. -/
theorem response_without_pending_entry_witness :
    (State.queue { State.init with ref_memory := [(0, 5), (4, 9)],
                                   pending_reads := [(2, [0x04])] } 7 = [] ∧
      ∃ s', receive_read_data (Device.prompt 5 7) 1
            { State.init with ref_memory := [(0, 5), (4, 9)],
                              pending_reads := [(2, [0x04])] } = some (5, s') ∧
        Event.read_data_received 0 7 0 5 ∈ s'.log ∧
        s'.read_matches = 1 ∧ s'.read_mismatches = 0 ∧
        s'.queue 2 = [0x04] ∧ s'.queue 7 = []) ∧
    (State.queue { State.init with ref_memory := [(0, 5), (4, 9)],
                                   pending_reads := [(2, [0x04]), (7, [])] } 7 = [] ∧
      ∃ s', receive_read_data (Device.prompt 6 7) 1
            { State.init with ref_memory := [(0, 5), (4, 9)],
                              pending_reads := [(2, [0x04]), (7, [])] } = some (6, s') ∧
        Event.read_data_received 0 7 0 6 ∈ s'.log ∧
        s'.read_matches = 0 ∧ s'.read_mismatches = 1 ∧
        s'.queue 2 = [0x04] ∧ s'.queue 7 = []) := by
  constructor
  · refine ⟨by decide, ?_⟩
    obtain ⟨s', h1, h2, h3, h4, h5⟩ :=
      response_without_pending_entry (Device.prompt 5 7)
        { State.init with ref_memory := [(0, 5), (4, 9)], pending_reads := [(2, [0x04])] }
        0 1 7 rfl (by decide) rfl (fun j hj => absurd hj (Nat.not_lt_zero j)) rfl (by decide)
    obtain ⟨g1, g2⟩ := (h3 5 (by decide)).1 rfl
    exact ⟨s', h1, h2, g1, g2, (h4 2).trans (by decide), h5⟩
  · refine ⟨by decide, ?_⟩
    obtain ⟨s', h1, h2, h3, h4, h5⟩ :=
      response_without_pending_entry (Device.prompt 6 7)
        { State.init with ref_memory := [(0, 5), (4, 9)],
                          pending_reads := [(2, [0x04]), (7, [])] }
        0 1 7 rfl (by decide) rfl (fun j hj => absurd hj (Nat.not_lt_zero j)) rfl (by decide)
    obtain ⟨g1, g2⟩ := (h3 5 (by decide)).2 (by decide)
    exact ⟨s', h1, h2, g2, g1, (h4 2).trans (by decide), h5⟩

/-- C9: when the address to which a response is attributed is absent from
the reference memory, `receive_read_data` returns the device's data, leaves
`read_matches`, `read_mismatches` and the reference memory as they were (the
address is still absent) and adds one to `read_responses`; and in every
state reached from the initial state by a sequence of driver statements,
`read_matches + read_mismatches ≤ read_responses`. -/
theorem unchecked_read_of_unwritten_address :
    (∀ (dev : Device) (s : State) (k fuel : Nat),
      s.rready = true → k < fuel → (dev (s.time + k)).rvalid = true →
      (∀ j, j < k → (dev (s.time + j)).rvalid = false) →
      StdMap.find s.ref_memory ((s.queue (dev (s.time + k)).rid).headD 0) = none →
      ∃ s', receive_read_data dev fuel s = some ((dev (s.time + k)).rdata, s') ∧
        s'.read_matches = s.read_matches ∧ s'.read_mismatches = s.read_mismatches ∧
        s'.ref_memory = s.ref_memory ∧
        StdMap.find s'.ref_memory ((s.queue (dev (s.time + k)).rid).headD 0) = none ∧
        s'.read_responses = s.read_responses + 1) ∧
    (∀ (dev : Device) (fuel : Nat) (ops : List Op) (s : State),
      run dev fuel State.init ops = some s →
      s.read_matches + s.read_mismatches ≤ s.read_responses) := by
  constructor
  · intro dev s k fuel hr hfuel hvalid hmin habs
    refine ⟨(receive_body { s with time := s.time + k }
      (dev (s.time + k)).rdata (dev (s.time + k)).rid).2, ?_, ?_, ?_, ?_, ?_, ?_⟩
    · rw [receive_read_data_eq dev s k fuel hr hfuel hvalid hmin]
      rfl
    · exact (receive_body_absent { s with time := s.time + k } (dev (s.time + k)).rid
        (dev (s.time + k)).rdata habs).1
    · exact (receive_body_absent { s with time := s.time + k } (dev (s.time + k)).rid
        (dev (s.time + k)).rdata habs).2
    · exact receive_body_ref_memory _ _ _
    · rw [receive_body_ref_memory]; exact habs
    · exact (receive_body_frame { s with time := s.time + k } (dev (s.time + k)).rdata
        (dev (s.time + k)).rid).1
  · intro dev fuel ops s h
    exact (run_preserves ops h).2.2 (by decide)

/-- Witness for C9: a response taken in the initial state, where nothing has
been written, and the state reached by one write followed by two reads. -/
theorem unchecked_read_of_unwritten_address_witness :
    (∃ s', receive_read_data (Device.prompt 5 7) 1 State.init = some (5, s') ∧
        s'.read_matches = State.init.read_matches ∧
        s'.read_mismatches = State.init.read_mismatches ∧
        s'.ref_memory = State.init.ref_memory ∧
        StdMap.find s'.ref_memory 0 = none ∧
        s'.read_responses = State.init.read_responses + 1) ∧
    ((run (Device.prompt 5 0) 1 State.init [Op.write 4 5, Op.read 4 0, Op.read 8 0]).map
        (fun s => (s.read_matches, s.read_mismatches, s.read_responses)) = some (1, 0, 2) ∧
      (1 : Int) + 0 ≤ 2) :=
  ⟨unchecked_read_of_unwritten_address.1 (Device.prompt 5 7) State.init 0 1 rfl (by decide) rfl
      (fun j hj => absurd hj (Nat.not_lt_zero j)) rfl,
    by decide,
    unchecked_read_of_unwritten_address.2 (Device.prompt 5 0) 1
      [Op.write 4 5, Op.read 4 0, Op.read 8 0]
      { time := 7, araddr := 8, arid := 0, arvalid := false, awaddr := 4, awvalid := false,
        wdata := 5, wvalid := false, rready := true, bready := true,
        ref_memory := [(4, 5)], pending_reads := [(0, [])],
        writes_sent := 1, reads_sent := 2, write_responses := 1, read_responses := 2,
        read_matches := 1, read_mismatches := 0,
        log := [Event.write_addr_sent 1 4, Event.write_data_sent 2 5,
                Event.write_response_received 3, Event.read_addr_sent 4 4 0,
                Event.read_data_received 4 0 4 5, Event.read_addr_sent 6 8 0,
                Event.read_data_received 6 0 8 5] }
      (by decide)⟩

/-- C4: when the address to which a response is attributed is in the
reference memory with a value different from the returned data,
`receive_read_data` still returns the device's data, adds one to
`read_mismatches` and to `read_responses` and leaves `read_matches` as it
was.  From the initial state, `write(0x00, 0x11111111)` followed by
`read(0x00, 0)` runs to completion against every responsive device, and
whenever that read returns `0x11111112` the state has `read_mismatches = 1`
and `read_matches = 0`. -/
theorem mismatch_is_counted_not_fatal :
    (∀ (dev : Device) (s : State) (k fuel v : Nat),
      s.rready = true → k < fuel → (dev (s.time + k)).rvalid = true →
      (∀ j, j < k → (dev (s.time + j)).rvalid = false) →
      StdMap.find s.ref_memory ((s.queue (dev (s.time + k)).rid).headD 0) = some v →
      v ≠ (dev (s.time + k)).rdata →
      ∃ s', receive_read_data dev fuel s = some ((dev (s.time + k)).rdata, s') ∧
        s'.read_mismatches = s.read_mismatches + 1 ∧
        s'.read_matches = s.read_matches ∧
        s'.read_responses = s.read_responses + 1) ∧
    (∀ (dev : Device) (fuel : Nat) (s1 : State) (r : Nat × State),
      write dev fuel State.init 0x00 0x11111111 = some s1 →
      read dev fuel s1 0x00 0 = some r → r.1 = 0x11111112 →
      r.2.read_mismatches = 1 ∧ r.2.read_matches = 0) ∧
    (∀ (dev : Device) (L fuel : Nat), Responsive dev L → L ≤ fuel →
      ∃ s1 r, write dev fuel State.init 0x00 0x11111111 = some s1 ∧
        read dev fuel s1 0x00 0 = some r) := by
  refine ⟨?_, ?_, ?_⟩
  · intro dev s k fuel v hr hfuel hvalid hmin hfind hne
    refine ⟨(receive_body { s with time := s.time + k }
      (dev (s.time + k)).rdata (dev (s.time + k)).rid).2, ?_, ?_, ?_, ?_⟩
    · rw [receive_read_data_eq dev s k fuel hr hfuel hvalid hmin]
      rfl
    · exact (receive_body_mismatch { s with time := s.time + k } (dev (s.time + k)).rid
        (dev (s.time + k)).rdata hfind hne).2
    · exact (receive_body_mismatch { s with time := s.time + k } (dev (s.time + k)).rid
        (dev (s.time + k)).rdata hfind hne).1
    · exact (receive_body_frame { s with time := s.time + k } (dev (s.time + k)).rdata
        (dev (s.time + k)).rid).1
  · intro dev fuel s1 r hw hrd hdata
    obtain ⟨w1, w2, _, _, _, _, w7, w8⟩ := write_effect hw
    obtain ⟨s2, h1, h2⟩ := read_some hrd
    obtain ⟨e1, e2, _, _, e5, e6, _, _, _, _⟩ := send_read_addr_effect h1
    obtain ⟨k, _, _, _, _, hr⟩ := receive_read_data_some h2
    subst hr
    have hdata' : (dev (s2.time + k)).rdata = 0x11111112 := hdata
    have hq : (State.queue { s2 with time := s2.time + k } (dev (s2.time + k)).rid).headD 0
        = 0 := by
      have := e1 (dev (s2.time + k)).rid
      have hq0 : ∀ u, s1.queue u = [] := by
        intro u
        simp [State.queue, w2, State.init, StdMap.find]
      rw [hq0, hq0] at this
      show (s2.queue (dev (s2.time + k)).rid).headD 0 = 0
      rw [this]
      split_ifs <;> simp
    have hfind : StdMap.find ({ s2 with time := s2.time + k } : State).ref_memory
        ((State.queue { s2 with time := s2.time + k } (dev (s2.time + k)).rid).headD 0)
        = some 0x11111111 := by
      rw [hq]
      show StdMap.find s2.ref_memory 0 = some 0x11111111
      rw [e2, w1]
      simp [State.init, StdMap.assign, StdMap.find]
    obtain ⟨g1, g2⟩ := receive_body_mismatch { s2 with time := s2.time + k }
      (dev (s2.time + k)).rid (dev (s2.time + k)).rdata hfind (by rw [hdata']; decide)
    rw [g1, g2]
    show s2.read_mismatches + 1 = 1 ∧ s2.read_matches = 0
    rw [e5, e6, w7, w8]
    simp [State.init]
  · intro dev L fuel hd hf
    obtain ⟨s2, h⟩ := run_total hd hf [Op.write 0x00 0x11111111, Op.read 0x00 0]
      State.init rfl rfl
    simp only [run, step] at h
    cases hw : write dev fuel State.init 0x00 0x11111111 with
    | none => simp [hw] at h
    | some s1 =>
      simp only [hw] at h
      cases hrd : read dev fuel s1 0x00 0 with
      | none => simp [hrd] at h
      | some r => exact ⟨s1, r, rfl, hrd⟩

/-- Witness for C4: the scenario against a device that answers at once with
`0x11111112`. -/
theorem mismatch_is_counted_not_fatal_witness :
    (∃ s1 r, write (Device.prompt 0x11111112 0) 1 State.init 0x00 0x11111111 = some s1 ∧
        read (Device.prompt 0x11111112 0) 1 s1 0x00 0 = some r ∧
        r.1 = 0x11111112 ∧ r.2.read_mismatches = 1 ∧ r.2.read_matches = 0) ∧
    (∃ s', receive_read_data (Device.prompt 6 0) 1
          { State.init with ref_memory := [(0, 5)] } = some (6, s') ∧
        s'.read_mismatches = 1 ∧ s'.read_matches = 0 ∧ s'.read_responses = 1) := by
  obtain ⟨s1, r, hw, hr⟩ :=
    mismatch_is_counted_not_fatal.2.2 (Device.prompt 0x11111112 0) 1 1
      (responsive_prompt 0x11111112 0) le_rfl
  have hdata : r.1 = 0x11111112 := by
    obtain ⟨s2, _, h2⟩ := read_some hr
    obtain ⟨k, _, _, _, _, e⟩ := receive_read_data_some h2
    rw [e]; rfl
  refine ⟨⟨s1, r, hw, hr, hdata, mismatch_is_counted_not_fatal.2.1 _ 1 s1 r hw hr hdata⟩, ?_⟩
  exact mismatch_is_counted_not_fatal.1 (Device.prompt 6 0)
    { State.init with ref_memory := [(0, 5)] } 0 1 5 rfl (by decide) rfl
    (fun j hj => absurd hj (Nat.not_lt_zero j)) rfl (by decide)

/-- C2: for distinct tags `t` and `u`, a completed `send_read_addr(addr, t)`
leaves the pending queue of `u` as it was, and so does a completed
`receive_read_data` whose response carries tag `t`; that call attributes the
response to the oldest pending address of `t` (0 when there is none), and
run instead from a state whose queue of `u` holds any other contents `q` it
prints the same lines (so attributes the same address), counts the same
match or mismatch, leaves the same queue for `t` and leaves `q` for `u`. -/
theorem tag_isolation :
    (∀ (dev : Device) (s : State) (addr t u k fuel : Nat), t ≠ u →
      1 ≤ k → k ≤ fuel → (dev (s.time + k)).arready = true →
      (∀ j, 1 ≤ j → j < k → (dev (s.time + j)).arready = false) →
      ∃ s', send_read_addr dev fuel s addr t = some s' ∧ s'.queue u = s.queue u) ∧
    (∀ (dev : Device) (s : State) (t u k fuel : Nat), t ≠ u →
      s.rready = true → k < fuel → (dev (s.time + k)).rvalid = true →
      (∀ j, j < k → (dev (s.time + j)).rvalid = false) →
      (dev (s.time + k)).rid = t →
      ∃ s', receive_read_data dev fuel s = some ((dev (s.time + k)).rdata, s') ∧
        s'.queue u = s.queue u ∧
        (∃ rest, s'.log = s.log ++
          Event.read_data_received (s.time + k) t ((s.queue t).headD 0)
            (dev (s.time + k)).rdata :: rest) ∧
        ∀ q : List Nat,
          ∃ s2, receive_read_data dev fuel
              { s with pending_reads := StdMap.assign s.pending_reads u q } =
                some ((dev (s.time + k)).rdata, s2) ∧
            s2.log = s'.log ∧ s2.read_matches = s'.read_matches ∧
            s2.read_mismatches = s'.read_mismatches ∧
            s2.queue t = s'.queue t ∧ s2.queue u = q) := by
  constructor
  · intro dev s addr t u k fuel htu hk hfuel hready hmin
    have h := send_read_addr_eq dev s addr t k fuel hk hfuel hready hmin
    refine ⟨_, h, ?_⟩
    rw [(send_read_addr_effect h).1 u, if_neg (Ne.symm htu)]
  · intro dev s t u k fuel htu hr hfuel hvalid hmin hid
    have h := receive_read_data_eq dev s k fuel hr hfuel hvalid hmin
    rw [hid] at h
    refine ⟨(receive_body { s with time := s.time + k } (dev (s.time + k)).rdata t).2,
      h, ?_, ?_, ?_⟩
    · rw [receive_body_queue, if_neg (Ne.symm htu)]; rfl
    · exact ⟨_, receive_body_log { s with time := s.time + k } _ _⟩
    · intro q
      have hqt : ∀ v, State.queue
          { s with pending_reads := StdMap.assign s.pending_reads u q, time := s.time + k } v =
            if v = u then q else s.queue v := by
        intro v
        simp only [State.queue, StdMap.find_assign]
        split_ifs <;> simp
      have h2 := receive_read_data_eq dev
        { s with pending_reads := StdMap.assign s.pending_reads u q } k fuel hr hfuel hvalid hmin
      rw [hid] at h2
      refine ⟨(receive_body
        { s with pending_reads := StdMap.assign s.pending_reads u q, time := s.time + k }
        (dev (s.time + k)).rdata t).2, h2, ?_, ?_, ?_, ?_, ?_⟩
      · rw [receive_body_log, receive_body_log, hqt t, if_neg htu]
        rfl
      · rw [(receive_body_counts _ _ _).1, (receive_body_counts _ _ _).1, hqt t, if_neg htu]
        rfl
      · rw [(receive_body_counts _ _ _).2, (receive_body_counts _ _ _).2, hqt t, if_neg htu]
        rfl
      · rw [receive_body_queue, receive_body_queue, if_pos rfl, if_pos rfl, hqt t, if_neg htu]
        rfl
      · rw [receive_body_queue, if_neg (Ne.symm htu), hqt u, if_pos rfl]

/-- Witness for C2: tags 1 and 2, with address `0x04` pending under tag 2;
the response carries tag 1. -/
theorem tag_isolation_witness :
    (∃ s', send_read_addr (Device.prompt 5 1) 1
        { State.init with pending_reads := [(2, [0x04])] } 0x00 1 = some s' ∧
      s'.queue 2 = [0x04]) ∧
    (∃ s', receive_read_data (Device.prompt 5 1) 1
        { State.init with pending_reads := [(1, [0x00]), (2, [0x04])] } = some (5, s') ∧
      s'.queue 2 = [0x04] ∧
      (∃ rest, s'.log = [] ++ Event.read_data_received 0 1 0x00 5 :: rest) ∧
      ∀ q : List Nat,
        ∃ s2, receive_read_data (Device.prompt 5 1) 1
              { State.init with pending_reads := StdMap.assign [(1, [0x00]), (2, [0x04])] 2 q } =
                some (5, s2) ∧
          s2.log = s'.log ∧ s2.read_matches = s'.read_matches ∧
          s2.read_mismatches = s'.read_mismatches ∧
          s2.queue 1 = s'.queue 1 ∧ s2.queue 2 = q) :=
  ⟨tag_isolation.1 (Device.prompt 5 1) { State.init with pending_reads := [(2, [0x04])] }
      0x00 1 2 1 1 (by decide) le_rfl le_rfl rfl (fun j h1 h2 => absurd h1 (by omega)),
    tag_isolation.2 (Device.prompt 5 1)
      { State.init with pending_reads := [(1, [0x00]), (2, [0x04])] }
      1 2 0 1 (by decide) rfl (by decide) rfl (fun j hj => absurd hj (Nat.not_lt_zero j)) rfl⟩

/-- C1: starting with an empty queue for tag `t`, after any sequence of
`send_read_addr` calls (the calls with tag `t` carrying the addresses
`a1..an` in this order, calls with other tags interleaved in any way) and
then any number of `receive_read_data` calls, the addresses attributed to
the responses with tag `t`, in order of arrival, are `a1..an`: the first `n`
of them when at least `n` such responses arrived, a prefix of `a1..an`
otherwise.  Against a responsive device both runs complete. -/
theorem fifo_per_tag (dev : Device) (fuel : Nat) (s0 : State) (t : Nat)
    (sends : List (Nat × Nat)) (m : Nat) (hq : s0.queue t = []) :
    (∀ s1 s2 : State,
      run dev fuel s0 (sends.map (fun p => Op.send_read_addr p.1 p.2)) = some s1 →
      run dev fuel s1 (List.replicate m Op.receive_read_data) = some s2 →
      ∃ evs, s2.log = s1.log ++ evs ∧ (responses evs).length = m ∧
        ((sends.filter (fun p => p.2 = t)).length ≤
            ((responses evs).filter (fun r => r.1 = t)).length →
          (((responses evs).filter (fun r => r.1 = t)).map (fun r => r.2.1)).take
              (sends.filter (fun p => p.2 = t)).length =
            (sends.filter (fun p => p.2 = t)).map Prod.fst) ∧
        (((responses evs).filter (fun r => r.1 = t)).length ≤
            (sends.filter (fun p => p.2 = t)).length →
          ((responses evs).filter (fun r => r.1 = t)).map (fun r => r.2.1) =
            ((sends.filter (fun p => p.2 = t)).map Prod.fst).take
              ((responses evs).filter (fun r => r.1 = t)).length)) ∧
    (∀ L : Nat, Responsive dev L → L ≤ fuel → s0.rready = true → s0.bready = true →
      ∃ s1 s2 : State,
        run dev fuel s0 (sends.map (fun p => Op.send_read_addr p.1 p.2)) = some s1 ∧
        run dev fuel s1 (List.replicate m Op.receive_read_data) = some s2) := by
  constructor
  · intro s1 s2 h1 h2
    obtain ⟨e1, _⟩ := run_sends sends h1
    obtain ⟨evs, i1, i2, i3⟩ := run_receives_fifo t m h2
    rw [e1 t, hq, List.nil_append, List.length_map] at i3
    refine ⟨evs, i1, i2, ?_, ?_⟩
    · intro hle
      rw [i3]
      apply List.take_of_length_le
      simpa using hle
    · intro hle
      rw [← i3]
      symm
      apply List.take_of_length_le
      simpa using hle
  · intro L hd hf hr hb
    obtain ⟨s1, h1⟩ := run_total hd hf (sends.map (fun p => Op.send_read_addr p.1 p.2)) s0 hr hb
    obtain ⟨a1, a2, _⟩ := run_preserves _ h1
    obtain ⟨s2, h2⟩ := run_total hd hf (List.replicate m Op.receive_read_data) s1
      (a1.trans hr) (a2.trans hb)
    exact ⟨s1, s2, h1, h2⟩

/-- Witness for C1: tag 1, the calls `send_read_addr(0x00, 1)`,
`send_read_addr(0x04, 2)`, `send_read_addr(0x08, 1)` from the initial state,
then three responses with the tags 1, 2, 1: the two responses of tag 1 are
attributed to `0x00` and `0x08` in this order. -/
theorem fifo_per_tag_witness :
    State.init.queue 1 = [] ∧
    ∃ s1 s2 evs,
      run (Device.replay [(1, 0), (2, 0), (1, 0)] 3) 1 State.init
        ([(0x00, 1), (0x04, 2), (0x08, 1)].map (fun p => Op.send_read_addr p.1 p.2)) = some s1 ∧
      run (Device.replay [(1, 0), (2, 0), (1, 0)] 3) 1 s1
        (List.replicate 3 Op.receive_read_data) = some s2 ∧
      s2.log = s1.log ++ evs ∧
      (responses evs).map (fun r => r.1) = [1, 2, 1] ∧
      ((responses evs).filter (fun r => r.1 = 1)).map (fun r => r.2.1) = [0x00, 0x08] := by
  refine ⟨rfl, ?_⟩
  have hthm := fifo_per_tag (Device.replay [(1, 0), (2, 0), (1, 0)] 3) 1 State.init 1
    [(0x00, 1), (0x04, 2), (0x08, 1)] 3 rfl
  obtain ⟨s1, s2, h1, h2⟩ := hthm.2 1 (responsive_replay _ _) le_rfl rfl rfl
  obtain ⟨evs, e1, _, _, e4⟩ := hthm.1 s1 s2 h1 h2
  have hev : (run (Device.replay [(1, 0), (2, 0), (1, 0)] 3) 1 State.init
        ([(0x00, 1), (0x04, 2), (0x08, 1)].map (fun p => Op.send_read_addr p.1 p.2))).bind
      (fun s1 => (run (Device.replay [(1, 0), (2, 0), (1, 0)] 3) 1 s1
        (List.replicate 3 Op.receive_read_data)).map
          (fun s2 => (responses (s2.log.drop s1.log.length)).map (fun r => r.1))) =
      some [1, 2, 1] := by decide
  rw [h1] at hev
  simp only [Option.some_bind, h2, Option.map_some', Option.some.injEq] at hev
  rw [e1, List.drop_left] at hev
  have hfilter : ((responses evs).filter (fun r => r.1 = 1)).length = 2 := by
    have : ((responses evs).filter (fun r => r.1 = 1)).length =
        (((responses evs).map (fun r => r.1)).filter (fun k => k = 1)).length := by
      rw [List.filter_map, List.length_map]
      rfl
    rw [this, hev]
    rfl
  refine ⟨s1, s2, evs, h1, h2, e1, hev, ?_⟩
  have h := e4 (by rw [hfilter]; decide)
  rw [hfilter] at h
  rw [h]
  rfl

/-- C6: from a state whose queues of tags 1 to 5 are empty, after the five
`send_read_addr` calls of Test 6 and five `receive_read_data` calls, if the
five responses carry the tags 1 to 5 in some order then each response is
attributed to the address issued with its tag, the (tag, address) pairs are
those issued, whatever the order, the five queues are empty again, and, when
every response carries the reference value of its address, `read_matches`
has grown by the number of the five addresses present in the reference
memory and `read_mismatches` has not changed.  Against a responsive device
both runs complete. -/
theorem out_of_order_completion (dev : Device) (fuel : Nat) (s0 : State)
    (hq : ∀ k ∈ [1, 2, 3, 4, 5], s0.queue k = []) :
    (∀ s1 s2 : State,
      run dev fuel s0 test6_sends = some s1 →
      run dev fuel s1 (List.replicate 5 Op.receive_read_data) = some s2 →
      ∃ evs, s2.log = s1.log ++ evs ∧ (responses evs).length = 5 ∧
        (List.Perm ((responses evs).map (fun r => r.1)) [1, 2, 3, 4, 5] →
          (∀ r ∈ responses evs,
            (r.1, r.2.1) ∈ [(1, 0x00), (2, 0x04), (3, 0x08), (4, 0x10), (5, 0x14)]) ∧
          List.Perm ((responses evs).map (fun r => (r.1, r.2.1)))
            [(1, 0x00), (2, 0x04), (3, 0x08), (4, 0x10), (5, 0x14)] ∧
          (∀ k ∈ [1, 2, 3, 4, 5], s2.queue k = []) ∧
          ((∀ r ∈ responses evs, ∀ v, StdMap.find s0.ref_memory r.2.1 = some v → r.2.2 = v) →
            s2.read_matches = s0.read_matches +
              (([0x00, 0x04, 0x08, 0x10, 0x14].filter
                (fun a => (StdMap.find s0.ref_memory a).isSome)).length : Nat) ∧
            s2.read_mismatches = s0.read_mismatches))) ∧
    (∀ L : Nat, Responsive dev L → L ≤ fuel → s0.rready = true → s0.bready = true →
      ∃ s1 s2 : State, run dev fuel s0 test6_sends = some s1 ∧
        run dev fuel s1 (List.replicate 5 Op.receive_read_data) = some s2) := by
  constructor
  · intro s1 s2 h1 h2
    have hsends : test6_sends =
        ([(0x00, 1), (0x04, 2), (0x08, 3), (0x10, 4), (0x14, 5)] : List (Nat × Nat)).map
          (fun p => Op.send_read_addr p.1 p.2) := rfl
    rw [hsends] at h1
    obtain ⟨e1, e2, e3, e4, _, _⟩ := run_sends _ h1
    have q1 : s1.queue 1 = [0x00] := by rw [e1 1, hq 1 (by decide)]; rfl
    have q2 : s1.queue 2 = [0x04] := by rw [e1 2, hq 2 (by decide)]; rfl
    have q3 : s1.queue 3 = [0x08] := by rw [e1 3, hq 3 (by decide)]; rfl
    have q4 : s1.queue 4 = [0x10] := by rw [e1 4, hq 4 (by decide)]; rfl
    have q5 : s1.queue 5 = [0x14] := by rw [e1 5, hq 5 (by decide)]; rfl
    obtain ⟨evs, i1, i2, _, i4, i5, i6⟩ := run_receives_nodup 5 h2
    refine ⟨evs, i1, i2, ?_⟩
    intro hp
    obtain ⟨j1, j2⟩ := i6 ((hp.nodup_iff).2 (by decide))
    have hmap : (responses evs).map (fun r => (r.1, r.2.1)) =
        ((responses evs).map (fun r => r.1)).map (fun k => (k, (s1.queue k).headD 0)) := by
      rw [List.map_map]
      apply List.map_congr_left
      intro r hr
      simp only [Function.comp, j1 r hr]
    have hpairs : List.Perm ((responses evs).map (fun r => (r.1, r.2.1)))
        [(1, 0x00), (2, 0x04), (3, 0x08), (4, 0x10), (5, 0x14)] := by
      rw [hmap]
      have := hp.map (fun k => (k, (s1.queue k).headD 0))
      simpa [q1, q2, q3, q4, q5] using this
    refine ⟨?_, hpairs, ?_, ?_⟩
    · intro r hr
      exact (hpairs.mem_iff).1 (List.mem_map_of_mem (fun r => (r.1, r.2.1)) hr)
    · intro k hk
      have hk' : k ∈ (responses evs).map (fun r => r.1) := (hp.mem_iff).2 hk
      rw [j2 k, if_pos hk']
      simp only [List.mem_cons, List.mem_singleton, List.mem_nil_iff, or_false] at hk
      rcases hk with rfl | rfl | rfl | rfl | rfl
      · rw [q1]; rfl
      · rw [q2]; rfl
      · rw [q3]; rfl
      · rw [q4]; rfl
      · rw [q5]; rfl
    · intro hv
      have haddrs : List.Perm ((responses evs).map (fun r => r.2.1))
          [0x00, 0x04, 0x08, 0x10, 0x14] := by
        have := hpairs.map Prod.snd
        simpa [List.map_map, Function.comp] using this
      constructor
      · rw [i4, e3, e2]
        congr 2
        have hc : (responses evs).countP (is_match s0.ref_memory) =
            (responses evs).countP
              ((fun a => (StdMap.find s0.ref_memory a).isSome) ∘ (fun r => r.2.1)) := by
          apply List.countP_congr
          intro r hr
          simp only [is_match, Function.comp, beq_iff_eq]
          constructor
          · intro h; rw [h]; rfl
          · intro h
            obtain ⟨v, hv'⟩ := Option.isSome_iff_exists.1 h
            rw [hv', hv r hr v hv']
        rw [hc, ← List.countP_map, haddrs.countP_eq, List.countP_eq_length_filter]
      · rw [i5, e4, e2]
        have hz : (responses evs).countP (is_mismatch s0.ref_memory) = 0 := by
          rw [List.countP_eq_zero]
          intro r hr
          simp only [is_mismatch, Bool.and_eq_true, bne_iff_ne, ne_eq, not_and, not_not]
          intro h
          obtain ⟨v, hv'⟩ := Option.isSome_iff_exists.1 h
          rw [hv', hv r hr v hv']
        rw [hz]
        simp
  · intro L hd hf hr hb
    obtain ⟨s1, h1⟩ := run_total hd hf test6_sends s0 hr hb
    obtain ⟨a1, a2, _⟩ := run_preserves _ h1
    obtain ⟨s2, h2⟩ := run_total hd hf (List.replicate 5 Op.receive_read_data) s1
      (a1.trans hr) (a2.trans hb)
    exact ⟨s1, s2, h1, h2⟩

/-- Witness for C6: the five reads answered in the tag order 3, 1, 5, 2, 4
with the reference values. -/
theorem out_of_order_completion_witness :
    (∀ k ∈ [1, 2, 3, 4, 5], State.written.queue k = []) ∧
    ∃ s1 s2 evs,
      run Device.shuffled 1 State.written test6_sends = some s1 ∧
      run Device.shuffled 1 s1 (List.replicate 5 Op.receive_read_data) = some s2 ∧
      s2.log = s1.log ++ evs ∧
      responses evs = [(3, 0x08, 0x33333333), (1, 0x00, 0x11111111), (5, 0x14, 0xBBBBBBBB),
        (2, 0x04, 0x22222222), (4, 0x10, 0xAAAAAAAA)] ∧
      (∀ k ∈ [1, 2, 3, 4, 5], s2.queue k = []) ∧
      s2.read_matches = 5 ∧ s2.read_mismatches = 0 := by
  have hq : ∀ k ∈ [1, 2, 3, 4, 5], State.written.queue k = [] := by decide
  refine ⟨hq, ?_⟩
  have hthm := out_of_order_completion Device.shuffled 1 State.written hq
  obtain ⟨s1, s2, h1, h2⟩ := hthm.2 1 (responsive_replay _ _) le_rfl rfl rfl
  obtain ⟨evs, e1, _, e3⟩ := hthm.1 s1 s2 h1 h2
  have hev : (run Device.shuffled 1 State.written test6_sends).bind
      (fun s1 => (run Device.shuffled 1 s1 (List.replicate 5 Op.receive_read_data)).map
          (fun s2 => responses (s2.log.drop s1.log.length))) =
      some [(3, 0x08, 0x33333333), (1, 0x00, 0x11111111), (5, 0x14, 0xBBBBBBBB),
        (2, 0x04, 0x22222222), (4, 0x10, 0xAAAAAAAA)] := by decide
  rw [h1] at hev
  simp only [Option.some_bind, h2, Option.map_some', Option.some.injEq] at hev
  rw [e1, List.drop_left] at hev
  obtain ⟨_, _, g3, g4⟩ := e3 (by rw [hev]; decide)
  obtain ⟨g5, g6⟩ := g4 (by
    rw [hev]
    intro r hr v hv
    have hall : ∀ r ∈ [(3, 0x08, 0x33333333), (1, 0x00, 0x11111111), (5, 0x14, 0xBBBBBBBB),
        (2, 0x04, 0x22222222), (4, 0x10, 0xAAAAAAAA)],
        StdMap.find State.written.ref_memory r.2.1 = some r.2.2 := by decide
    rw [hall r hr] at hv
    exact Option.some.inj hv)
  exact ⟨s1, s2, evs, h1, h2, e1, hev, g3, g5, g6⟩

/-- C7: for lists of `N` addresses and `N` data values (addresses may
repeat) and any initial state, whenever the Test 3 pattern (all addresses,
then all data values), the Test 4 pattern (all data values, then all
addresses) and the calls `write(addr_i, data_i)` in order each run to
completion, against whatever devices, the reference memories after the
Test 3 and Test 4 patterns both equal the one after the pairwise writes, and
`writes_sent` has grown by `N` in each of the three runs.  Against
responsive devices all three runs complete. -/
theorem reordered_channel_equivalence (dev3 dev4 devp : Device) (fuel3 fuel4 fuelp : Nat)
    (s : State) (addrs datas : List Nat) (hlen : addrs.length = datas.length) :
    (∀ s3 s4 sp : State,
      run dev3 fuel3 s (addresses_before_data addrs datas) = some s3 →
      run dev4 fuel4 s (data_before_addresses addrs datas) = some s4 →
      run devp fuelp s (pairwise_writes addrs datas) = some sp →
      s3.ref_memory = sp.ref_memory ∧ s4.ref_memory = sp.ref_memory ∧
      s3.writes_sent = s.writes_sent + addrs.length ∧
      s4.writes_sent = s.writes_sent + addrs.length ∧
      sp.writes_sent = s.writes_sent + addrs.length) ∧
    (∀ L : Nat, Responsive dev3 L → Responsive dev4 L → Responsive devp L →
      L ≤ fuel3 → L ≤ fuel4 → L ≤ fuelp → s.rready = true → s.bready = true →
      ∃ s3 s4 sp : State,
        run dev3 fuel3 s (addresses_before_data addrs datas) = some s3 ∧
        run dev4 fuel4 s (data_before_addresses addrs datas) = some s4 ∧
        run devp fuelp s (pairwise_writes addrs datas) = some sp) := by
  constructor
  · intro s3 s4 sp h3 h4 hp
    have hz : (addrs.zip datas).length = addrs.length := by
      rw [List.length_zip, hlen, Nat.min_self]
    have e3 := run_ref_effect _ h3
    have e4 := run_ref_effect _ h4
    have ep := run_ref_effect _ hp
    simp only [addresses_before_data, List.foldl_append, foldl_send_write_addr,
      foldl_record_after_data, foldl_await_write_response, hz] at e3
    simp only [data_before_addresses, List.foldl_append, foldl_send_write_data,
      foldl_record_after_addr, foldl_await_write_response, hz] at e4
    simp only [pairwise_writes, foldl_pairwise, hz] at ep
    simp only [Prod.mk.injEq] at e3 e4 ep
    exact ⟨e3.1.trans ep.1.symm, e4.1.trans ep.1.symm, e3.2, e4.2, ep.2⟩
  · intro L h3 h4 hp f3 f4 fp hr hb
    obtain ⟨s3, e3⟩ := run_total h3 f3 (addresses_before_data addrs datas) s hr hb
    obtain ⟨s4, e4⟩ := run_total h4 f4 (data_before_addresses addrs datas) s hr hb
    obtain ⟨sp, ep⟩ := run_total hp fp (pairwise_writes addrs datas) s hr hb
    exact ⟨s3, s4, sp, e3, e4, ep⟩

/-- Witness for C7: the addresses `0x20, 0x24, 0x20` (one repeated) with
the data values 1, 2, 3 from the initial state. -/
theorem reordered_channel_equivalence_witness :
    ([0x20, 0x24, 0x20] : List Nat).length = ([1, 2, 3] : List Nat).length ∧
    ∃ s3 s4 sp : State,
      run (Device.prompt 0 0) 1 State.init
        (addresses_before_data [0x20, 0x24, 0x20] [1, 2, 3]) = some s3 ∧
      run (Device.late 2 0 0) 4 State.init
        (data_before_addresses [0x20, 0x24, 0x20] [1, 2, 3]) = some s4 ∧
      run (Device.prompt 0 0) 1 State.init
        (pairwise_writes [0x20, 0x24, 0x20] [1, 2, 3]) = some sp ∧
      sp.ref_memory = [(0x20, 3), (0x24, 2)] ∧
      s3.ref_memory = sp.ref_memory ∧ s4.ref_memory = sp.ref_memory ∧
      s3.writes_sent = 3 ∧ s4.writes_sent = 3 ∧ sp.writes_sent = 3 := by
  refine ⟨rfl, ?_⟩
  have hthm := reordered_channel_equivalence (Device.prompt 0 0) (Device.late 2 0 0)
    (Device.prompt 0 0) 1 4 1 State.init [0x20, 0x24, 0x20] [1, 2, 3] rfl
  have h3 : (run (Device.prompt 0 0) 1 State.init
      (addresses_before_data [0x20, 0x24, 0x20] [1, 2, 3])).isSome = true := by decide
  have h4 : (run (Device.late 2 0 0) 4 State.init
      (data_before_addresses [0x20, 0x24, 0x20] [1, 2, 3])).isSome = true := by decide
  have hp : (run (Device.prompt 0 0) 1 State.init
      (pairwise_writes [0x20, 0x24, 0x20] [1, 2, 3])).map (fun s => s.ref_memory) =
        some [(0x20, 3), (0x24, 2)] := by decide
  obtain ⟨s3, e3⟩ := Option.isSome_iff_exists.1 h3
  obtain ⟨s4, e4⟩ := Option.isSome_iff_exists.1 h4
  cases ep : run (Device.prompt 0 0) 1 State.init
      (pairwise_writes [0x20, 0x24, 0x20] [1, 2, 3]) with
  | none => rw [ep] at hp; exact absurd hp (by simp)
  | some sp =>
    rw [ep] at hp
    simp only [Option.map_some', Option.some.injEq] at hp
    obtain ⟨g1, g2, g3, g4, g5⟩ := hthm.1 s3 s4 sp e3 e4 ep
    exact ⟨s3, s4, sp, e3, e4, rfl, hp, g1, g2, g3, g4, g5⟩

/-- C3, as amended: after a completed `write(addr, data)` and then any
completed driver statements none of which stores a value for `addr`, if no
read address is pending under `tag`, a `read(addr, tag)` whose address is
accepted after `k1` ticks and whose response, `k2` ticks later, carries that
tag and the value `data` returns `data`, adds exactly one to `read_matches`
and leaves `read_mismatches` as it was. -/
theorem write_before_read_consistency (dev : Device) (fuel : Nat) (s s1 s2 : State)
    (addr data tag : Nat) (ops : List Op) (k1 k2 : Nat)
    (hw : write dev fuel s addr data = some s1)
    (hops : run dev fuel s1 ops = some s2)
    (hno : ∀ op ∈ ops, op.writes_to addr = false)
    (hq : s2.queue tag = [])
    (hr : s2.rready = true)
    (hk1 : 1 ≤ k1) (hk1f : k1 ≤ fuel)
    (har : (dev (s2.time + k1)).arready = true)
    (harmin : ∀ j, 1 ≤ j → j < k1 → (dev (s2.time + j)).arready = false)
    (hk2f : k2 < fuel)
    (hrv : (dev (s2.time + k1 + k2)).rvalid = true)
    (hrvmin : ∀ j, j < k2 → (dev (s2.time + k1 + j)).rvalid = false)
    (hid : (dev (s2.time + k1 + k2)).rid = tag)
    (hdata : (dev (s2.time + k1 + k2)).rdata = data) :
    ∃ s3, read dev fuel s2 addr tag = some (data, s3) ∧
      s3.read_matches = s2.read_matches + 1 ∧
      s3.read_mismatches = s2.read_mismatches := by
  have hsend := send_read_addr_eq dev s2 addr tag k1 fuel hk1 hk1f har harmin
  obtain ⟨e1, e2, _, _, e5, e6, _, _, e9, _⟩ := send_read_addr_effect hsend
  generalize hS : ({ s2 with
      araddr := addr, arid := tag, arvalid := false, time := s2.time + k1,
      log := s2.log ++ [Event.read_addr_sent (s2.time + k1) addr tag],
      pending_reads := StdMap.assign (StdMap.index s2.pending_reads tag []).2 tag
        ((StdMap.index s2.pending_reads tag []).1 ++ [addr]),
      reads_sent := s2.reads_sent + 1 } : State) = S at hsend e1 e2 e5 e6 e9
  have htime : S.time = s2.time + k1 := by rw [← hS]
  have hrecv := receive_read_data_eq dev S k2 fuel (e9.trans hr) hk2f
    (by rw [htime]; exact hrv) (fun j hj => by rw [htime]; exact hrvmin j hj)
  rw [htime, hid, hdata] at hrecv
  have hfind2 : StdMap.find s2.ref_memory addr = some data := by
    have h1 := run_ref_effect ops hops
    have h2 := foldl_keeps_find addr ops (s1.ref_memory, s1.writes_sent) hno
    rw [← h1] at h2
    simp only at h2
    rw [h2, (write_effect hw).1, StdMap.find_assign, if_pos rfl]
  have hqS : State.queue { S with time := s2.time + k1 + k2 } tag = [addr] := by
    show S.queue tag = [addr]
    rw [e1 tag, if_pos rfl, hq]; rfl
  have hfind : StdMap.find ({ S with time := s2.time + k1 + k2 } : State).ref_memory
      ((State.queue { S with time := s2.time + k1 + k2 } tag).headD 0) = some data := by
    rw [hqS]
    show StdMap.find S.ref_memory addr = some data
    rw [e2]; exact hfind2
  obtain ⟨g1, g2⟩ := receive_body_match { S with time := s2.time + k1 + k2 } tag data hfind
  refine ⟨(receive_body { S with time := s2.time + k1 + k2 } data tag).2, ?_, ?_, ?_⟩
  · simp only [read, hsend]
    exact hrecv
  · rw [g1]; show S.read_matches + 1 = _; rw [e5]
  · rw [g2]; show S.read_mismatches = _; rw [e6]

/-- Witness for C3 as amended: `write(0x00, 0x11111111)` from the initial
state, then `write(0x04, 0x22222222)` and `sc_start(10, SC_NS)`, then
`read(0x00, 0)` answered with tag 0 and `0x11111111`. -/
theorem write_before_read_consistency_witness :
    ∃ s1 s2 s3 : State,
      write (Device.prompt 0x11111111 0) 1 State.init 0x00 0x11111111 = some s1 ∧
      run (Device.prompt 0x11111111 0) 1 s1 [Op.write 0x04 0x22222222, Op.sc_start 10] =
        some s2 ∧
      s2.queue 0 = [] ∧
      read (Device.prompt 0x11111111 0) 1 s2 0x00 0 = some (0x11111111, s3) ∧
      s3.read_matches = s2.read_matches + 1 ∧
      s3.read_mismatches = s2.read_mismatches := by
  have hev : (write (Device.prompt 0x11111111 0) 1 State.init 0x00 0x11111111).bind
      (fun s1 => (run (Device.prompt 0x11111111 0) 1 s1
        [Op.write 0x04 0x22222222, Op.sc_start 10]).map
          (fun s2 => (s2.queue 0, s2.rready))) = some ([], true) := by decide
  cases hw : write (Device.prompt 0x11111111 0) 1 State.init 0x00 0x11111111 with
  | none => rw [hw] at hev; exact absurd hev (by simp)
  | some s1 =>
    rw [hw] at hev
    simp only [Option.some_bind] at hev
    cases hops : run (Device.prompt 0x11111111 0) 1 s1
        [Op.write 0x04 0x22222222, Op.sc_start 10] with
    | none => rw [hops] at hev; exact absurd hev (by simp)
    | some s2 =>
      rw [hops] at hev
      simp only [Option.map_some', Option.some.injEq, Prod.mk.injEq] at hev
      obtain ⟨s3, h1, h2, h3⟩ :=
        write_before_read_consistency (Device.prompt 0x11111111 0) 1 State.init s1 s2
          0x00 0x11111111 0 [Op.write 0x04 0x22222222, Op.sc_start 10] 1 0 hw hops
          (by decide) hev.1 hev.2 le_rfl le_rfl rfl (fun j h1 h2 => absurd h1 (by omega))
          (by decide) rfl (fun j hj => absurd hj (Nat.not_lt_zero j)) rfl rfl
      exact ⟨s1, s2, s3, rfl, hops, hev.1, h1, h2, h3⟩

/-- Counterexample to C3 as stated: from the initial state, after
`write(0x00, 0x11111111)`, then `write(0x04, 0x22222222)` and
`send_read_addr(0x04, 0)` (neither writes address `0x00` again),
`read(0x00, 0)` takes a response carrying tag 0 and the value `0x11111111`
and returns that value, yet the response is attributed to the older pending
address `0x04` of tag 0: `read_matches` does not change and
`read_mismatches` grows by one.  With the never-written address `0x08`
pending instead, the same read changes neither counter. -/
theorem write_before_read_counterexample :
    (∀ op ∈ [Op.write 0x04 0x22222222, Op.send_read_addr 0x04 0],
      op.writes_to 0x00 = false) ∧
    (∀ t, (Device.prompt 0x11111111 0 t).rid = 0 ∧
      (Device.prompt 0x11111111 0 t).rdata = 0x11111111) ∧
    (write (Device.prompt 0x11111111 0) 1 State.init 0x00 0x11111111).bind
      (fun s1 => (run (Device.prompt 0x11111111 0) 1 s1
        [Op.write 0x04 0x22222222, Op.send_read_addr 0x04 0]).bind
          (fun s2 => (read (Device.prompt 0x11111111 0) 1 s2 0x00 0).map
            (fun r => (r.1, r.2.read_matches - s2.read_matches,
              r.2.read_mismatches - s2.read_mismatches)))) =
      some (0x11111111, 0, 1) ∧
    (write (Device.prompt 0x11111111 0) 1 State.init 0x00 0x11111111).bind
      (fun s1 => (run (Device.prompt 0x11111111 0) 1 s1
        [Op.write 0x04 0x22222222, Op.send_read_addr 0x04 0]).bind
          (fun s2 => (read (Device.prompt 0x11111111 0) 1 s2 0x00 0).map
            (fun r => (s2.queue 0, responses (r.2.log.drop s2.log.length))))) =
      some ([0x04], [(0, 0x04, 0x11111111)]) ∧
    (Op.send_read_addr 0x08 0).writes_to 0x00 = false ∧
    (write (Device.prompt 0x11111111 0) 1 State.init 0x00 0x11111111).bind
      (fun s1 => (run (Device.prompt 0x11111111 0) 1 s1 [Op.send_read_addr 0x08 0]).bind
          (fun s2 => (read (Device.prompt 0x11111111 0) 1 s2 0x00 0).map
            (fun r => (r.1, r.2.read_matches - s2.read_matches,
              r.2.read_mismatches - s2.read_mismatches)))) =
      some (0x11111111, 0, 0) :=
  ⟨by decide, fun _ => ⟨rfl, rfl⟩, by decide, by decide, by decide, by decide⟩

end AxiTb
